import Mathlib

/-!
Verification of the rucio-workflow orchestration core.

Shallow embedding notes:
* Python strings are modelled as `List Char` (`Str`); `str.strip` is modelled over the
  ASCII whitespace characters, `os.path` behaviour is POSIX.
* The Rucio client is modelled as an explicit record of response functions over an
  abstract client state `σ` (`Client σ`); every call made is also recorded in a trace.
* Python exceptions are modelled as `Except PyExc`; benign catches in the source are
  modelled by matching on the response constructors the source catches.
* `uuid.uuid4()` (a random GUID) is modelled by an explicit placeholder constant, and
  `hashlib.md5(...).hexdigest()` by the abstract deterministic function `Client.md5hex`.
-/

set_option linter.unusedVariables false

abbrev Str := List Char

/-- Character class `[a-zA-Z0-9._-]` used by the name/scope validators. -/
def idChar (c : Char) : Bool :=
  c.isAlpha || c.isDigit || c = '.' || c = '_' || c = '-'

/-- Scheme characters `[a-zA-Z0-9+.-]` of the PFN URL regex. -/
def schemeChar (c : Char) : Bool :=
  c.isAlpha || c.isDigit || c = '+' || c = '.' || c = '-'

/-- Hex-digit class `[a-fA-F0-9]` of the checksum regexes. -/
def hexChar (c : Char) : Bool :=
  c.isDigit || ('a' ≤ c && c ≤ 'f') || ('A' ≤ c && c ≤ 'F')

/-- ASCII whitespace stripped by Python's `str.strip()`. -/
def pyIsSpace (c : Char) : Bool :=
  c = ' ' || c = '\t' || c = '\n' || c = '\r' || c = '\x0b' || c = '\x0c'

/-- `c ∈ s`, as the Python `":" in dataset_name` test. -/
def containsC (c : Char) (l : Str) : Bool := l.any (fun x => decide (x = c))

/-- Split at the first occurrence of `c` (Python `s.split(c, 1)` when `c` occurs). -/
def splitFirstL (c : Char) : Str → Str × Str
  | [] => ([], [])
  | x :: xs =>
    if x = c then ([], xs)
    else
      let p := splitFirstL c xs
      (x :: p.1, p.2)

/-- Python `s.split(c)`: split at every occurrence of `c`, keeping empty pieces. -/
def splitOnC (c : Char) : Str → List Str
  | [] => [[]]
  | x :: xs =>
    let r := splitOnC c xs
    if x = c then [] :: r
    else
      match r with
      | [] => [[x]]
      | h :: t => (x :: h) :: t

/-- Python `sep.join(parts)` for a one-character separator. -/
def joinSep (c : Char) : List Str → Str
  | [] => []
  | [p] => p
  | p :: q :: rest => p ++ c :: joinSep c (q :: rest)

/-- `".".join parts`. -/
def joinDot (parts : List Str) : Str := joinSep '.' parts

/-- Python `s.strip()` (ASCII whitespace). -/
def trimL (l : Str) : Str :=
  ((l.dropWhile pyIsSpace).reverse.dropWhile pyIsSpace).reverse

/-- POSIX `os.path.basename`: everything after the last `/`. -/
def basenameL (l : Str) : Str := (splitOnC '/' l).getLastD []

/-- Substring test, Python `needle in haystack`. -/
def hasInfix (needle : Str) : Str → Bool
  | [] => needle.isEmpty
  | x :: xs => needle.isPrefixOf (x :: xs) || hasInfix needle xs

/-- Python `re.match(r A-z-class+ $, s)`: all characters in the class, at least one,
with `$` also matching just before one final newline. -/
def pyMatchClassPlus (p : Char → Bool) (l : Str) : Bool :=
  (!l.isEmpty && l.all p) ||
  (match l.reverse with
   | '\n' :: rest => !rest.isEmpty && rest.all p
   | _ => false)

/-- Python regex `^[a-fA-F0-9]{n}$` (with the `$`-before-final-newline allowance). -/
def hexMatch (n : Nat) (l : Str) : Bool :=
  (decide (l.length = n) && l.all hexChar) ||
  (match l.reverse with
   | '\n' :: rest => decide (rest.length = n) && rest.all hexChar
   | _ => false)

/-- The PFN URL regex `^[a-zA-Z][a-zA-Z0-9+.-]*://.+` (prefix match).  Because the
scheme class contains no `:`, a match forces the first colon of the string to begin
the `://`, with at least one non-newline character after it. -/
def pfnUrlMatch (s : Str) : Bool :=
  match s.takeWhile (fun x => decide (x ≠ ':')), s.dropWhile (fun x => decide (x ≠ ':')) with
  | c :: cs, ':' :: '/' :: '/' :: r :: _ => c.isAlpha && cs.all schemeChar && decide (r ≠ '\n')
  | _, _ => false

/-- Chunks of size `k+1` (Python `files[i:i+batch_size]` for `i in range(0, len, bs)`).
The `fuel` argument only makes the recursion structural; it is always called with
`fuel ≥ l.length`, where the second equation is unreachable. -/
def chunksAux (k : Nat) : Nat → List α → List (List α)
  | _, [] => []
  | 0, _ :: _ => []
  | fuel + 1, x :: xs => (x :: xs).take (k + 1) :: chunksAux k fuel ((x :: xs).drop (k + 1))

/-- Chunks of size `bs` (meaningful for `bs ≥ 1`). -/
def chunks (bs : Nat) (l : List α) : List (List α) := chunksAux (bs - 1) l.length l

section AssocDict
variable {κ α : Type} [DecidableEq κ]

/-- Python `k in d` for an insertion-ordered dict modelled as an association list. -/
def amem (m : List (κ × α)) (k : κ) : Bool := m.any (fun p => decide (p.1 = k))

/-- Python `d.get(k)`. -/
def aget? (m : List (κ × α)) (k : κ) : Option α := (m.find? (fun p => decide (p.1 = k))).map (·.2)

/-- Python `d[k] = v` (update in place if present, else append, keeping order). -/
def aset (m : List (κ × α)) (k : κ) (v : α) : List (κ × α) :=
  if amem m k then m.map (fun p => if p.1 = k then (k, v) else p) else m ++ [(k, v)]

end AssocDict

/-- Python `set.add` on a set modelled as a duplicate-free list. -/
def insertSet [DecidableEq κ] (l : List κ) (x : κ) : List κ :=
  if x ∈ l then l else l ++ [x]

/-! ## Exceptions -/

/-- The exception taxonomy of `rucio_workflow.exceptions`, plus Python's `ValueError`
and a constructor for generic exceptions surfacing from the Rucio client. -/
inductive PyExc where
  | validationError (msg : String)
  | datasetError (msg : String)
  | fileRegistrationError (msg : String)
  | valueError (msg : String)
  | clientError (msg : String)
deriving DecidableEq, Repr

deriving instance DecidableEq for Except

/-- Python `str(e)`. -/
def PyExc.msg : PyExc → String
  | .validationError m => m
  | .datasetError m => m
  | .fileRegistrationError m => m
  | .valueError m => m
  | .clientError m => m

/-! ## ValidationUtils (`utils.py`) -/

/-- `ValidationUtils.validate_dataset_name`. -/
def validate_dataset_name (dataset_name : Str) : Except PyExc Bool :=
  if dataset_name.isEmpty then .error (.validationError "Dataset name cannot be empty")
  else if 255 < dataset_name.length then
    .error (.validationError "Dataset name too long (max 255 characters)")
  else if pyMatchClassPlus idChar (dataset_name.filter (fun x => decide (x ≠ ':'))) then .ok true
  else .error (.validationError "Dataset name contains invalid characters")

/-- `ValidationUtils.validate_scope`. -/
def validate_scope (scope : Str) : Except PyExc Bool :=
  if scope.isEmpty then .error (.validationError "Scope cannot be empty")
  else if pyMatchClassPlus idChar scope then .ok true
  else .error (.validationError "Scope contains invalid characters")

/-- `ValidationUtils.validate_lfn`. -/
def validate_lfn (lfn : Str) : Except PyExc Bool :=
  if lfn.isEmpty then .error (.validationError "LFN cannot be empty")
  else if 1024 < lfn.length then .error (.validationError "LFN too long (max 1024 characters)")
  else .ok true

/-- `ValidationUtils.validate_pfn`. -/
def validate_pfn (pfn : Str) : Except PyExc Bool :=
  if pfn.isEmpty then .error (.validationError "PFN cannot be empty")
  else if hasInfix "://".data pfn then
    if pfnUrlMatch pfn then .ok true else .error (.validationError "Invalid PFN URL format")
  else if (match pfn with | '/' :: _ => true | _ => false) then .ok true
  else .error (.validationError "PFN must be an absolute path")

/-- `ValidationUtils.validate_checksum`. -/
def validate_checksum (checksum : Str) : Except PyExc Bool :=
  if checksum.isEmpty then .error (.validationError "Checksum cannot be empty")
  else if "md5:".data.isPrefixOf checksum then
    if hexMatch 32 (checksum.drop 4) then .ok true
    else .error (.validationError "Invalid MD5 hash format")
  else if "ad:".data.isPrefixOf checksum then
    if hexMatch 8 (checksum.drop 3) then .ok true
    else .error (.validationError "Invalid Adler32 hash format")
  else .error (.validationError "Unsupported checksum format (use md5: or ad:)")

/-- `ValidationUtils.validate_file_size` (sizes are typed integers in the embedding). -/
def validate_file_size (size : Int) : Except PyExc Bool :=
  if size < 0 then .error (.validationError "File size must be a non-negative integer")
  else .ok true

/-! ## RucioUtils (`utils.py`) -/

/-- `RucioUtils.extract_scope`: resolve a combined identifier into (scope, name). -/
def extract_scope (dataset_name : Str) (strip_slash : Bool) : Except PyExc (Str × Str) :=
  let dn := if strip_slash && decide (dataset_name.getLast? = some '/')
            then dataset_name.dropLast else dataset_name
  if containsC ':' dn then
    let p := splitFirstL ':' dn
    .ok (trimL p.1, trimL p.2)
  else
    let parts := splitOnC '.' dn
    if parts.length < 2 then
      .error (.validationError ("Dataset name must contain at least one dot or colon: " ++ String.mk dn))
    else if "user".data.isPrefixOf dn || "group".data.isPrefixOf dn then
      if 3 ≤ parts.length then
        .ok (joinDot (parts.take 2), joinDot (parts.drop 2))
      else
        .ok (parts.headD [], joinDot (parts.drop 1))
    else
      .ok (joinDot parts.dropLast, parts.getLastD [])

/-- The 8-4-4-4-12 formatting of a 32-character hex digest (`generate_vuid`'s tail). -/
def format_vuid (hex : String) : String :=
  hex.take 8 ++ "-" ++ ((hex.drop 8).take 4) ++ "-" ++ ((hex.drop 12).take 4) ++ "-" ++
    ((hex.drop 16).take 4) ++ "-" ++ ((hex.drop 20).take 12)

/-- `RucioUtils.generate_vuid`, parameterized by the md5 hex-digest function. -/
def generate_vuid (md5hex : Str → String) (scope name : Str) : String :=
  format_vuid (md5hex (scope ++ ':' :: name))

/-! ## File data model (`file_manager.py`) -/

/-- `FileInfo`: a file with its metadata (fields as stored by `FileInfo.__init__`). -/
structure FileInfo where
  lfn : Str
  pfn : Str
  size : Int
  checksum : Str
  guid : Str
  scope : Option Str
  metadata : List (Str × Str)
deriving DecidableEq, Repr

/-- Placeholder for the value of `uuid.uuid4()` (randomness is outside the model). -/
def generated_guid : Str := "00000000-0000-4000-8000-000000000000".data

/-- `FileInfo.__init__`: validate the four validated fields, then populate the record
(adding a `filename` metadata entry derived from the LFN when absent). -/
def FileInfo.make (lfn pfn : Str) (size : Int) (checksum : Str)
    (guid : Option Str) (scope : Option Str) (metadata : List (Str × Str)) :
    Except PyExc FileInfo := do
  let _ ← validate_lfn lfn
  let _ ← validate_pfn pfn
  let _ ← validate_file_size size
  let _ ← validate_checksum checksum
  .ok { lfn, pfn, size, checksum,
        guid := guid.getD generated_guid, scope,
        metadata :=
          if metadata.any (fun p => decide (p.1 = "filename".data)) then metadata
          else metadata ++ [("filename".data, basenameL lfn)] }

/-- A Rucio file payload dictionary (union of the shapes built by the source; absent
keys are `none`). -/
structure FileDict where
  scope : Option Str := none
  name : Str
  bytes : Option Int := none
  pfn : Option Str := none
  md5 : Option Str := none
  adler32 : Option Str := none
  meta : List (Str × Str) := []
deriving DecidableEq, Repr

/-- `FileInfo.to_rucio_dict` (the `rse` argument is unused in the source too). -/
def FileInfo.to_rucio_dict (fi : FileInfo) (rse : Str) : FileDict :=
  { scope := fi.scope
    name := fi.lfn
    bytes := some fi.size
    pfn := some fi.pfn
    md5 := if "md5:".data.isPrefixOf fi.checksum then some (fi.checksum.drop 4) else none
    adler32 := if "md5:".data.isPrefixOf fi.checksum then none
               else if "ad:".data.isPrefixOf fi.checksum then some (fi.checksum.drop 3) else none
    meta := fi.metadata.foldl (fun acc kv => aset acc kv.1 kv.2) [("guid".data, fi.guid)] }

/-- `f"{file_info.scope}:{file_info.lfn}"` — Python renders `None` as `"None"`. -/
def scopeKey (scope : Option Str) (lfn : Str) : Str :=
  (match scope with | some s => s | none => "None".data) ++ ':' :: lfn

/-! ## The abstract Rucio client -/

inductive AddResp where
  | ok | alreadyExists | err (msg : String)
deriving DecidableEq, Repr

inductive MetaSetResp where
  | ok | notFound | err (msg : String)
deriving DecidableEq, Repr

inductive GetMetaResp where
  | found (is_open : Bool) | notFound | err (msg : String)
deriving DecidableEq, Repr

inductive StatusResp where
  | ok | unsupported | notFound | err (msg : String)
deriving DecidableEq, Repr

inductive ReplResp where
  | ok | alreadyExists | err (msg : String)
deriving DecidableEq, Repr

inductive AttachResp where
  | ok | alreadyExists | err (msg : String)
deriving DecidableEq, Repr

/-- One catalog call, as recorded in the call trace. -/
inductive CallEv where
  | addDataset (scope name : Str) (meta : List (String × String))
  | setMetadata (scope name : Str) (key : String) (value : ℚ)
  | getMetadata (scope name : Str)
  | setStatus (scope name : Str) (isOpen : Bool)
  | addReplicas (rse : Str) (files : List FileDict)
  | addFilesToDataset (scope name : Str) (files : List FileDict) (rse : Option Str)
deriving DecidableEq, Repr

/-- The Rucio client as an oracle: per-call responses over an abstract state `σ`.
`DataIdentifierAlreadyExists`, `DataIdentifierNotFound`, `UnsupportedOperation` and
`FileAlreadyExists` are the dedicated response constructors; `err` is any other
exception raised by the call. -/
structure Client (σ : Type) where
  md5hex : Str → String
  addDataset : σ → Str → Str → List (String × String) → AddResp × σ
  setMetadata : σ → Str → Str → String → ℚ → MetaSetResp × σ
  getMetadata : σ → Str → Str → GetMetaResp × σ
  setStatus : σ → Str → Str → Bool → StatusResp × σ
  addReplicas : σ → Str → List FileDict → ReplResp × σ
  addFilesToDataset : σ → Str → Str → List FileDict → Option Str → AttachResp × σ

/-- Machine state threaded through the embedding: the client state, the trace of
catalog calls, and the two per-manager tracking sets from the source. -/
structure St (σ : Type) where
  cstate : σ
  trace : List CallEv := []
  registered_files : List Str := []
  created_datasets : List Str := []
deriving Repr

section Model

variable {σ : Type}

def callAddDataset (c : Client σ) (st : St σ) (scope name : Str)
    (meta : List (String × String)) : AddResp × St σ :=
  let (r, s) := c.addDataset st.cstate scope name meta
  (r, { st with cstate := s, trace := st.trace ++ [.addDataset scope name meta] })

def callSetMetadata (c : Client σ) (st : St σ) (scope name : Str) (key : String)
    (value : ℚ) : MetaSetResp × St σ :=
  let (r, s) := c.setMetadata st.cstate scope name key value
  (r, { st with cstate := s, trace := st.trace ++ [.setMetadata scope name key value] })

def callGetMetadata (c : Client σ) (st : St σ) (scope name : Str) : GetMetaResp × St σ :=
  let (r, s) := c.getMetadata st.cstate scope name
  (r, { st with cstate := s, trace := st.trace ++ [.getMetadata scope name] })

def callSetStatus (c : Client σ) (st : St σ) (scope name : Str) (isOpen : Bool) :
    StatusResp × St σ :=
  let (r, s) := c.setStatus st.cstate scope name isOpen
  (r, { st with cstate := s, trace := st.trace ++ [.setStatus scope name isOpen] })

def callAddReplicas (c : Client σ) (st : St σ) (rse : Str) (files : List FileDict) :
    ReplResp × St σ :=
  let (r, s) := c.addReplicas st.cstate rse files
  (r, { st with cstate := s, trace := st.trace ++ [.addReplicas rse files] })

def callAddFilesToDataset (c : Client σ) (st : St σ) (scope name : Str)
    (files : List FileDict) (rse : Option Str) : AttachResp × St σ :=
  let (r, s) := c.addFilesToDataset st.cstate scope name files rse
  (r, { st with cstate := s,
                trace := st.trace ++ [.addFilesToDataset scope name files rse] })

end Model

/-! ## MetadataUtils (`utils.py`) -/

/-- The keyword arguments accepted by `MetadataUtils.create_dataset_metadata`. -/
structure MetaArgs where
  task_id : Option String := none
  campaign : Option String := none
  hidden : Bool := false
  kwargs : List (String × String) := []
deriving DecidableEq, Repr

/-- `MetadataUtils.create_dataset_metadata` (values rendered as strings). -/
def create_dataset_metadata (a : MetaArgs) : List (String × String) :=
  let base := [("hidden", if a.hidden then "True" else "False"), ("purge_replicas", "0")]
  let base := match a.task_id with | some t => base ++ [("task_id", t)] | none => base
  let base := match a.campaign with | some cp => base ++ [("campaign", cp)] | none => base
  a.kwargs.foldl (fun acc kv => aset acc kv.1 kv.2) base

/-! ## DatasetManager (`dataset_manager.py`) -/

/-- The dictionary returned by `DatasetManager.create_dataset`. -/
structure DatasetInfo where
  duid : String
  version : Nat
  vuid : String
  scope : Str
  name : Str
deriving DecidableEq, Repr

/-- The `if scope is None: extract_scope(...) else: validate_scope(scope)` prologue of
`create_dataset`. -/
def resolveScopeValidated (scope : Option Str) (dataset_name : Str) :
    Except PyExc (Str × Str) :=
  match scope with
  | none => extract_scope dataset_name false
  | some sc => do
      let _ ← validate_scope sc
      .ok (sc, dataset_name)

/-- The `if scope is None: extract_scope(...)` prologue of the other manager methods. -/
def resolveScopePlain (scope : Option Str) (dataset_name : Str) :
    Except PyExc (Str × Str) :=
  match scope with
  | none => extract_scope dataset_name false
  | some sc => .ok (sc, dataset_name)

section Model

variable {σ : Type}

/-- `DatasetManager.create_dataset`.  `AlreadyExists` on the catalog create is
swallowed; lifetime-setting and opening are best-effort (failures swallowed);
any other failure is wrapped in a `DatasetError`. -/
def create_dataset (c : Client σ) (dataset_name : Str) (scope : Option Str)
    (metadata : Option MetaArgs) (lifetime_days : Option Int) (open_dataset : Bool)
    (st : St σ) : Except PyExc DatasetInfo × St σ :=
  match validate_dataset_name dataset_name with
  | .error e =>
    (.error (.datasetError ("Failed to create dataset " ++ String.mk dataset_name ++ ": " ++ e.msg)), st)
  | .ok _ =>
    match resolveScopeValidated scope dataset_name with
    | .error e =>
      (.error (.datasetError ("Failed to create dataset " ++ String.mk dataset_name ++ ": " ++ e.msg)), st)
    | .ok (sc, dn) =>
      let dataset_metadata := create_dataset_metadata (metadata.getD {})
      let (r1, st) := callAddDataset c st sc dn dataset_metadata
      match r1 with
      | .err m =>
        (.error (.datasetError ("Failed to create dataset " ++ String.mk dn ++ ": " ++ m)), st)
      | _ =>
        let st :=
          match lifetime_days with
          | some d => (callSetMetadata c st sc dn "lifetime" ((d * 86400 : Int) : ℚ)).2
          | none => st
        let st :=
          if open_dataset then
            match callGetMetadata c st sc dn with
            | (.found is_open, st) =>
              if !is_open then (callSetStatus c st sc dn true).2 else st
            | (_, st) => st
          else st
        let vuid := generate_vuid c.md5hex sc dn
        let st := { st with created_datasets := insertSet st.created_datasets (sc ++ ':' :: dn) }
        (.ok { duid := vuid, version := 1, vuid := vuid, scope := sc, name := dn }, st)

/-- `DatasetManager.close_dataset`: `UnsupportedOperation` and
`DataIdentifierNotFound` are treated as success; any other client failure is wrapped
in a `DatasetError`. -/
def close_dataset (c : Client σ) (dataset_name : Str) (scope : Option Str) (st : St σ) :
    Except PyExc Bool × St σ :=
  match resolveScopePlain scope dataset_name with
  | .error e =>
    (.error (.datasetError ("Failed to close dataset " ++ String.mk dataset_name ++ ": " ++ e.msg)), st)
  | .ok (sc, dn) =>
    let (r, st) := callSetStatus c st sc dn false
    match r with
    | .err m =>
      (.error (.datasetError ("Failed to close dataset " ++ String.mk dn ++ ": " ++ m)), st)
    | _ => (.ok true, st)

/-- `DatasetManager.delete_dataset`: sets the dataset lifetime to
`grace_period_hours * 3600` seconds (or `0.0001` if no grace period); "not found"
is treated as success. -/
def delete_dataset (c : Client σ) (dataset_name : Str) (scope : Option Str)
    (grace_period_hours : Option Int) (st : St σ) : Except PyExc Bool × St σ :=
  match resolveScopePlain scope dataset_name with
  | .error e =>
    (.error (.datasetError ("Failed to delete dataset " ++ String.mk dataset_name ++ ": " ++ e.msg)), st)
  | .ok (sc, dn) =>
    let lifetime_value : ℚ :=
      match grace_period_hours with
      | some g => ((g * 3600 : Int) : ℚ)
      | none => 1 / 10000
    let (r, st) := callSetMetadata c st sc dn "lifetime" lifetime_value
    match r with
    | .ok => (.ok true, { st with created_datasets := st.created_datasets.erase (sc ++ ':' :: dn) })
    | .notFound => (.ok true, st)
    | .err m =>
      (.error (.datasetError ("Failed to delete dataset " ++ String.mk dn ++ ": " ++ m)), st)

/-! ## FileManager (`file_manager.py`) -/

/-- `FileManager.register_file_replica`: `FileAlreadyExists` is treated as success;
the file is added to the tracking set; any other failure is wrapped in a
`FileRegistrationError`. -/
def register_file_replica (c : Client σ) (file_info : FileInfo) (rse : Str)
    (register_in_catalog : Bool) (st : St σ) : Except PyExc Bool × St σ :=
  let file_dict := file_info.to_rucio_dict rse
  let (r, st) :=
    if register_in_catalog then callAddReplicas c st rse [file_dict]
    else (ReplResp.ok, st)
  match r with
  | .err m =>
    (.error (.fileRegistrationError
      ("Failed to register file replica " ++ String.mk file_info.lfn ++ ": " ++ m)), st)
  | _ =>
    (.ok true,
     { st with registered_files :=
         insertSet st.registered_files (scopeKey file_info.scope file_info.lfn) })

/-- The success branch of a batch in `register_multiple_files`: mark every file of the
batch not already present in `results` as successfully registered. -/
def mark_batch_success (rse : Str) : List FileInfo → List (Str × Bool) → St σ →
    List (Str × Bool) × St σ
  | [], results, st => (results, st)
  | fi :: rest, results, st =>
    if amem results fi.lfn then mark_batch_success rse rest results st
    else
      mark_batch_success rse rest (aset results fi.lfn true)
        { st with registered_files := insertSet st.registered_files (scopeKey fi.scope fi.lfn) }

/-- The fallback branch of a batch in `register_multiple_files`: retry each file of
the batch individually via `register_file_replica`, recording per-file success. -/
def retry_batch_individually (c : Client σ) (rse : Str) : List FileInfo →
    List (Str × Bool) → St σ → List (Str × Bool) × St σ
  | [], results, st => (results, st)
  | fi :: rest, results, st =>
    if amem results fi.lfn then retry_batch_individually c rse rest results st
    else
      match register_file_replica c fi rse true st with
      | (.ok _, st) => retry_batch_individually c rse rest (aset results fi.lfn true) st
      | (.error _, st) => retry_batch_individually c rse rest (aset results fi.lfn false) st

/-- The batch loop of `register_multiple_files`. -/
def register_batches (c : Client σ) (rse : Str) : List (List FileInfo) →
    List (Str × Bool) → St σ → List (Str × Bool) × St σ
  | [], results, st => (results, st)
  | batch :: rest, results, st =>
    let file_dicts := batch.map (fun fi => fi.to_rucio_dict rse)
    if file_dicts.isEmpty then register_batches c rse rest results st
    else
      let (r, st) := callAddReplicas c st rse file_dicts
      match r with
      | .ok =>
        let (results, st) := mark_batch_success rse batch results st
        register_batches c rse rest results st
      | _ =>
        let (results, st) := retry_batch_individually c rse batch results st
        register_batches c rse rest results st

/-- `FileManager.register_multiple_files`: register in batches; a failed batch call
falls back to individual registration; returns the LFN → success mapping.  A zero
`batch_size` raises Python's `range` `ValueError`; a negative one makes the batch
loop empty. -/
def register_multiple_files (c : Client σ) (files : List FileInfo) (rse : Str)
    (batch_size : Int) (st : St σ) : Except PyExc (List (Str × Bool)) × St σ :=
  if batch_size = 0 then (.error (.valueError "range() arg 3 must not be zero"), st)
  else if batch_size < 0 then (.ok [], st)
  else
    let (results, st) := register_batches c rse (chunks batch_size.toNat files) [] st
    (.ok results, st)

end Model

/-- Items accepted by `FileManager.add_files_to_dataset`: `FileInfo` objects or bare
combined LFN strings. -/
inductive AddFileItem where
  | fi (f : FileInfo)
  | lfnStr (s : Str)
deriving DecidableEq, Repr

section Model

variable {σ : Type}

/-- Building the attachment payloads in `add_files_to_dataset` (the PFN key is
removed for `FileInfo` items; bare strings go through `extract_scope`). -/
def attach_payloads (rse : Option Str) : List AddFileItem → Except PyExc (List FileDict)
  | [] => .ok []
  | .fi f :: rest => do
    let d := f.to_rucio_dict (rse.getD [])
    let ds ← attach_payloads rse rest
    .ok ({ d with pfn := none } :: ds)
  | .lfnStr s :: rest => do
    let (file_scope, lfn) ← extract_scope s false
    let ds ← attach_payloads rse rest
    .ok ({ scope := some file_scope, name := lfn } :: ds)

/-- Per-file retry of a batch whose bulk attach raised `FileAlreadyExists`:
individual `FileAlreadyExists` results are swallowed; other failures propagate. -/
def attach_individually (c : Client σ) (sc dn : Str) (rse : Option Str) :
    List FileDict → St σ → Except PyExc Unit × St σ
  | [], st => (.ok (), st)
  | d :: rest, st =>
    match callAddFilesToDataset c st sc dn [d] rse with
    | (.err m, st) => (.error (.clientError m), st)
    | (_, st) => attach_individually c sc dn rse rest st

/-- The batch loop of `add_files_to_dataset` (batches of 1000). -/
def attach_batches (c : Client σ) (sc dn : Str) (rse : Option Str) :
    List (List FileDict) → St σ → Except PyExc Unit × St σ
  | [], st => (.ok (), st)
  | b :: rest, st =>
    match callAddFilesToDataset c st sc dn b rse with
    | (.ok, st) => attach_batches c sc dn rse rest st
    | (.alreadyExists, st) =>
      match attach_individually c sc dn rse b st with
      | (.ok _, st) => attach_batches c sc dn rse rest st
      | (.error e, st) => (.error e, st)
    | (.err m, st) => (.error (.clientError m), st)

/-- `FileManager.add_files_to_dataset`: normalize the input into DID payloads
(stripping PFNs), submit in batches of 1000 with per-file retry on a batch
`FileAlreadyExists`; any failure is wrapped in a `FileRegistrationError`. -/
def add_files_to_dataset (c : Client σ) (files : List AddFileItem) (dataset_name : Str)
    (dataset_scope : Option Str) (rse : Option Str) (st : St σ) :
    Except PyExc Bool × St σ :=
  match resolveScopePlain dataset_scope dataset_name with
  | .error e =>
    (.error (.fileRegistrationError
      ("Failed to add files to dataset " ++ String.mk dataset_name ++ ": " ++ e.msg)), st)
  | .ok (sc, dn) =>
    match attach_payloads rse files with
    | .error e =>
      (.error (.fileRegistrationError
        ("Failed to add files to dataset " ++ String.mk dn ++ ": " ++ e.msg)), st)
    | .ok file_dicts =>
      match attach_batches c sc dn rse (chunks 1000 file_dicts) st with
      | (.ok _, st) => (.ok true, st)
      | (.error e, st) =>
        (.error (.fileRegistrationError
          ("Failed to add files to dataset " ++ String.mk dn ++ ": " ++ e.msg)), st)

end Model

/-! ## WorkflowOrchestrator (`workflow_orchestrator.py`) -/

/-- `WorkflowResult` (timestamps are reduced to the fact of finalization:
`end_time = some ()` once `mark_complete` has run). -/
structure WorkflowResult where
  success : Bool := false
  dataset_created : Bool := false
  dataset_info : Option DatasetInfo := none
  files_registered : Nat := 0
  files_added_to_dataset : Nat := 0
  dataset_closed : Bool := false
  errors : List String := []
  end_time : Option Unit := none
deriving DecidableEq, Repr

/-- `WorkflowResult.mark_complete`. -/
def WorkflowResult.mark_complete (r : WorkflowResult) (success : Bool) : WorkflowResult :=
  { r with success := success, end_time := some () }

/-- `WorkflowResult.add_error`. -/
def WorkflowResult.add_error (r : WorkflowResult) (e : String) : WorkflowResult :=
  { r with errors := r.errors ++ [e] }

/-- A caller-supplied file dictionary (the `dict` branch of `execute_workflow`'s
input normalization; the required keys are typed as present). -/
structure FileSpec where
  lfn : Str
  pfn : Str
  size : Int
  checksum : Str
  guid : Option Str := none
  scope : Option Str := none
  extra : List (Str × Str) := []
deriving DecidableEq, Repr

/-- An element of the `files` argument of `execute_workflow`. -/
inductive FileItem where
  | info (f : FileInfo)
  | dict (d : FileSpec)
deriving DecidableEq, Repr

/-- The input-normalization loop of `_prepare_and_register_files`: dictionaries are
turned into `FileInfo` objects (running the constructor's validation). -/
def convertFiles : List FileItem → Except PyExc (List FileInfo)
  | [] => .ok []
  | .info f :: rest => do
    let fs ← convertFiles rest
    .ok (f :: fs)
  | .dict d :: rest => do
    let f ← FileInfo.make d.lfn d.pfn d.size d.checksum d.guid d.scope d.extra
    let fs ← convertFiles rest
    .ok (f :: fs)

section Model

variable {σ : Type}

/-- `WorkflowOrchestrator._create_dataset` (step 1). -/
def workflow_create_dataset (c : Client σ) (dataset_name : Str)
    (dataset_scope : Option Str) (dataset_metadata : Option MetaArgs)
    (dataset_lifetime_days : Option Int) (result : WorkflowResult) (st : St σ) :
    Except PyExc DatasetInfo × WorkflowResult × St σ :=
  match create_dataset c dataset_name dataset_scope dataset_metadata
      dataset_lifetime_days true st with
  | (.ok di, st) =>
    (.ok di, { result with dataset_created := true, dataset_info := some di }, st)
  | (.error e, st) =>
    let msg := "Failed to create dataset: " ++ e.msg
    (.error (.datasetError msg), result.add_error msg, st)

/-- `WorkflowOrchestrator._prepare_and_register_files` (step 2): normalize the input,
register all replicas, count successes, fail fatally when zero succeed, and pass on
the subset whose LFN registered successfully. -/
def prepare_and_register_files (c : Client σ) (files : List FileItem) (rse : Str)
    (result : WorkflowResult) (st : St σ) :
    Except PyExc (List FileInfo) × WorkflowResult × St σ :=
  match convertFiles files with
  | .error e =>
    let msg := "Failed to register files: " ++ e.msg
    (.error (.fileRegistrationError msg), result.add_error msg, st)
  | .ok file_infos =>
    match register_multiple_files c file_infos rse 100 st with
    | (.error e, st) =>
      let msg := "Failed to register files: " ++ e.msg
      (.error (.fileRegistrationError msg), result.add_error msg, st)
    | (.ok registration_results, st) =>
      let successful_registrations := (registration_results.filter (·.2)).length
      let result := { result with files_registered := successful_registrations }
      if successful_registrations = 0 then
        let msg := "Failed to register files: No files were successfully registered"
        (.error (.fileRegistrationError msg), result.add_error msg, st)
      else
        (.ok (file_infos.filter (fun fi => (aget? registration_results fi.lfn).getD false)),
         result, st)

/-- `WorkflowOrchestrator._add_files_to_dataset` (step 3; its `batch_size` parameter
is unused in the source as well). -/
def workflow_add_files_to_dataset (c : Client σ) (file_infos : List FileInfo)
    (dataset_info : DatasetInfo) (rse : Str) (batch_size : Int)
    (result : WorkflowResult) (st : St σ) : Except PyExc Unit × WorkflowResult × St σ :=
  match add_files_to_dataset c (file_infos.map AddFileItem.fi) dataset_info.name
      (some dataset_info.scope) (some rse) st with
  | (.ok true, st) =>
    (.ok (), { result with files_added_to_dataset := file_infos.length }, st)
  | (.ok false, st) =>
    let msg := "Failed to add files to dataset: Failed to add files to dataset"
    (.error (.fileRegistrationError msg), result.add_error msg, st)
  | (.error e, st) =>
    let msg := "Failed to add files to dataset: " ++ e.msg
    (.error (.fileRegistrationError msg), result.add_error msg, st)

/-- `WorkflowOrchestrator._close_dataset` (step 4): any boolean result marks the
dataset closed (a `False` is only a warning); an exception is wrapped and re-raised. -/
def workflow_close_dataset (c : Client σ) (dataset_info : DatasetInfo)
    (result : WorkflowResult) (st : St σ) : Except PyExc Unit × WorkflowResult × St σ :=
  match close_dataset c dataset_info.name (some dataset_info.scope) st with
  | (.ok _, st) => (.ok (), { result with dataset_closed := true }, st)
  | (.error e, st) =>
    let msg := "Failed to close dataset: " ++ e.msg
    (.error (.datasetError msg), result.add_error msg, st)

/-- `WorkflowOrchestrator._cleanup_on_failure`: best-effort deletion with a 1-hour
grace period; every exception is swallowed (logged only). -/
def cleanup_on_failure (c : Client σ) (dataset_info : DatasetInfo) (st : St σ) : St σ :=
  (delete_dataset c dataset_info.name (some dataset_info.scope) (some 1) st).2

/-- Steps 1–4 of `execute_workflow` (the body of its `try`), also returning the
`dataset_info` binding available to the exception handler. -/
def execute_workflow_steps (c : Client σ) (dataset_name : Str) (files : List FileItem)
    (rse : Str) (dataset_scope : Option Str) (dataset_metadata : Option MetaArgs)
    (dataset_lifetime_days : Option Int) (batch_size : Int) (result : WorkflowResult)
    (st : St σ) : Except PyExc Unit × Option DatasetInfo × WorkflowResult × St σ :=
  match workflow_create_dataset c dataset_name dataset_scope dataset_metadata
      dataset_lifetime_days result st with
  | (.error e, result, st) => (.error e, none, result, st)
  | (.ok dataset_info, result, st) =>
    match prepare_and_register_files c files rse result st with
    | (.error e, result, st) => (.error e, some dataset_info, result, st)
    | (.ok file_infos, result, st) =>
      match workflow_add_files_to_dataset c file_infos dataset_info rse batch_size
          result st with
      | (.error e, result, st) => (.error e, some dataset_info, result, st)
      | (.ok _, result, st) =>
        match workflow_close_dataset c dataset_info result st with
        | (.error e, result, st) => (.error e, some dataset_info, result, st)
        | (.ok _, result, st) => (.ok (), some dataset_info, result, st)

/-- `WorkflowOrchestrator.execute_workflow`: run steps 1–4; on success finalize with
`success := true`; on any exception record the error, finalize failed, and (when the
dataset was created) run the compensating cleanup — never propagating an exception. -/
def execute_workflow (c : Client σ) (dataset_name : Str) (files : List FileItem)
    (rse : Str) (dataset_scope : Option Str) (dataset_metadata : Option MetaArgs)
    (dataset_lifetime_days : Option Int) (batch_size : Int) (st : St σ) :
    WorkflowResult × St σ :=
  let result : WorkflowResult := {}
  match execute_workflow_steps c dataset_name files rse dataset_scope dataset_metadata
      dataset_lifetime_days batch_size result st with
  | (.ok _, _, result, st) => (result.mark_complete true, st)
  | (.error e, dataset_info, result, st) =>
    let result := result.add_error ("Workflow execution failed: " ++ e.msg)
    let result := result.mark_complete false
    if result.dataset_created then
      match dataset_info with
      | some di => (result, cleanup_on_failure c di st)
      | none => (result, st)
    else (result, st)

end Model

/-! ## A well-behaved catalog instance (used for the idempotence claim) -/

/-- One dataset entry of the honest catalog model. -/
structure CatDs where
  scope : Str
  name : Str
  is_open : Bool
  meta : List (String × ℚ)
deriving DecidableEq, Repr

/-- The honest catalog state: the list of existing datasets. -/
abbrev Catalog := List CatDs

/-- Look a dataset up in the honest catalog. -/
def catFind (cat : Catalog) (sc nm : Str) : Option CatDs :=
  cat.find? (fun d => decide (d.scope = sc) && decide (d.name = nm))

/-- Update a dataset in the honest catalog. -/
def catUpdate (cat : Catalog) (sc nm : Str) (f : CatDs → CatDs) : Catalog :=
  cat.map (fun d => if d.scope = sc ∧ d.name = nm then f d else d)

/-- A catalog client that behaves per the Rucio contract: create answers
"already exists" for an existing DID, metadata/status updates answer "not found"
for a missing one, and nothing else fails. -/
def honestClient (h : Str → String) : Client Catalog where
  md5hex := h
  addDataset := fun cat sc nm _meta =>
    match catFind cat sc nm with
    | some _ => (.alreadyExists, cat)
    | none => (.ok, cat ++ [{ scope := sc, name := nm, is_open := false, meta := [] }])
  setMetadata := fun cat sc nm key v =>
    match catFind cat sc nm with
    | some _ => (.ok, catUpdate cat sc nm (fun d => { d with meta := aset d.meta key v }))
    | none => (.notFound, cat)
  getMetadata := fun cat sc nm =>
    match catFind cat sc nm with
    | some d => (.found d.is_open, cat)
    | none => (.notFound, cat)
  setStatus := fun cat sc nm opn =>
    match catFind cat sc nm with
    | some _ => (.ok, catUpdate cat sc nm (fun d => { d with is_open := opn }))
    | none => (.notFound, cat)
  addReplicas := fun cat _ _ => (.ok, cat)
  addFilesToDataset := fun cat _ _ _ _ => (.ok, cat)

/-! ## Lemmas about the string substrate -/

theorem containsC_iff {c : Char} {l : Str} : containsC c l = true ↔ c ∈ l := by
  simp [containsC, List.any_eq_true]

theorem containsC_eq_false {c : Char} {l : Str} (h : c ∉ l) : containsC c l = false := by
  rw [Bool.eq_false_iff]
  intro hc
  exact h (containsC_iff.mp hc)

theorem splitFirstL_first (c : Char) (b : Str) :
    ∀ (a : Str), c ∉ a → splitFirstL c (a ++ c :: b) = (a, b)
  | [], _ => by simp [splitFirstL]
  | x :: xs, h => by
    have hx : ¬ x = c := fun he => h (he ▸ List.mem_cons_self x xs)
    have ih := splitFirstL_first c b xs (fun hm => h (List.mem_cons_of_mem _ hm))
    simp [splitFirstL, hx, ih]

theorem splitOnC_ne_nil (c : Char) : ∀ (s : Str), splitOnC c s ≠ []
  | [] => by simp [splitOnC]
  | x :: xs => by
    have ih := splitOnC_ne_nil c xs
    simp only [splitOnC]
    split
    · simp
    · rcases hr : splitOnC c xs with _ | ⟨h, t⟩
      · exact absurd hr ih
      · simp [hr]

theorem joinSep_splitOnC (c : Char) : ∀ (s : Str), joinSep c (splitOnC c s) = s
  | [] => rfl
  | x :: xs => by
    have ih := joinSep_splitOnC c xs
    by_cases hx : x = c
    · subst hx
      simp only [splitOnC, if_pos rfl]
      rcases hr : splitOnC x xs with _ | ⟨h, t⟩
      · exact absurd hr (splitOnC_ne_nil x xs)
      · rw [hr] at ih
        simpa [joinSep] using ih
    · simp only [splitOnC, if_neg hx]
      rcases hr : splitOnC c xs with _ | ⟨h, t⟩
      · exact absurd hr (splitOnC_ne_nil c xs)
      · rw [hr] at ih
        cases t with
        | nil => simpa [joinSep] using congrArg (x :: ·) ih
        | cons q t' =>
          simp only [joinSep] at ih ⊢
          rw [List.cons_append, ih]

theorem two_le_splitOnC_length {c : Char} : ∀ {s : Str}, c ∈ s → 2 ≤ (splitOnC c s).length
  | [], h => absurd h (List.not_mem_nil c)
  | x :: xs, h => by
    by_cases hx : x = c
    · simp only [splitOnC, if_pos hx, List.length_cons]
      have := List.length_pos.mpr (splitOnC_ne_nil c xs)
      omega
    · have hm : c ∈ xs := by
        rcases List.mem_cons.mp h with h1 | h2
        · exact absurd h1.symm hx
        · exact h2
      have ih := two_le_splitOnC_length hm
      simp only [splitOnC, if_neg hx]
      rcases hr : splitOnC c xs with _ | ⟨hh, t⟩
      · exact absurd hr (splitOnC_ne_nil c xs)
      · rw [hr] at ih
        simpa using ih

theorem dropWhile_eq_self_of {p : Char → Bool} : ∀ {l : Str},
    (∀ x ∈ l, p x = false) → l.dropWhile p = l
  | [], _ => rfl
  | x :: xs, h => by
    simp [List.dropWhile_cons, h x (List.mem_cons_self x xs)]

theorem trimL_eq_self {l : Str} (h : ∀ x ∈ l, pyIsSpace x = false) : trimL l = l := by
  unfold trimL
  rw [dropWhile_eq_self_of h, dropWhile_eq_self_of (fun x hx => h x (List.mem_reverse.mp hx)),
      List.reverse_reverse]

theorem joinSep_append (c : Char) :
    ∀ {l₁ l₂ : List Str}, l₁ ≠ [] → l₂ ≠ [] →
      joinSep c (l₁ ++ l₂) = joinSep c l₁ ++ c :: joinSep c l₂
  | [], _, h1, _ => absurd rfl h1
  | [p], l₂, _, h2 => by
    cases l₂ with
    | nil => exact absurd rfl h2
    | cons q t => rfl
  | p :: q :: rest, l₂, _, h2 => by
    have ih : joinSep c ((q :: rest) ++ l₂) =
        joinSep c (q :: rest) ++ c :: joinSep c l₂ := joinSep_append c (by simp) h2
    show p ++ c :: joinSep c ((q :: rest) ++ l₂) =
      (p ++ c :: joinSep c (q :: rest)) ++ c :: joinSep c l₂
    rw [ih, List.append_assoc]
    rfl

theorem joinSep_ne_nil (c : Char) :
    ∀ {l : List Str}, l ≠ [] → (∀ p ∈ l, p ≠ []) → joinSep c l ≠ []
  | [], h, _ => absurd rfl h
  | [p], _, hp => by simpa [joinSep] using hp p (by simp)
  | p :: q :: rest, _, hp => by simp [joinSep]

theorem idChar_not_space {c : Char} (h : idChar c = true) : pyIsSpace c = false := by
  rw [Bool.eq_false_iff]
  intro hs
  simp only [pyIsSpace, Bool.or_eq_true, decide_eq_true_eq] at hs
  rcases hs with ((((h1 | h2) | h3) | h4) | h5) | h6 <;> subst_vars <;> revert h <;> decide

/-- The colon branch of `extract_scope`, at the unique first-colon decomposition. -/
theorem extract_scope_colon_eq {a : Str} (b : Str) (h : ':' ∉ a) :
    extract_scope (a ++ ':' :: b) false = .ok (trimL a, trimL b) := by
  have hc : containsC ':' (a ++ ':' :: b) = true :=
    containsC_iff.mpr (List.mem_append_right a (List.mem_cons_self ':' b))
  simp [extract_scope, hc, splitFirstL_first ':' b a h]

/-- The dot branch of `extract_scope`, spelled out. -/
theorem extract_scope_dot_eq {s : Str} (hc : ':' ∉ s) (hd : '.' ∈ s) :
    extract_scope s false = .ok
      (if "user".data.isPrefixOf s || "group".data.isPrefixOf s then
         if 3 ≤ (splitOnC '.' s).length then
           (joinDot ((splitOnC '.' s).take 2), joinDot ((splitOnC '.' s).drop 2))
         else ((splitOnC '.' s).headD [], joinDot ((splitOnC '.' s).drop 1))
       else (joinDot (splitOnC '.' s).dropLast, (splitOnC '.' s).getLastD [])) := by
  have h2 := two_le_splitOnC_length hd
  have hcc := containsC_eq_false hc
  have hlt : ¬ (splitOnC '.' s).length < 2 := by omega
  by_cases h3 : 3 ≤ (splitOnC '.' s).length <;>
    cases hb : ("user".data.isPrefixOf s || "group".data.isPrefixOf s) <;>
      simp [extract_scope, hcc, hb, h3, hlt, joinDot]

/-- Splitting a dot-join at position `k`. -/
theorem joinDot_split (parts : List Str) (k : Nat) (h1 : 1 ≤ k) (h2 : k < parts.length) :
    joinDot (parts.take k) ++ '.' :: joinDot (parts.drop k) = joinDot parts := by
  have hne1 : parts.take k ≠ [] := by
    intro he
    have hl := List.length_take k parts
    rw [he] at hl
    simp only [List.length_nil] at hl
    omega
  have hne2 : parts.drop k ≠ [] := by
    intro he
    have hl := List.length_drop k parts
    rw [he] at hl
    simp only [List.length_nil] at hl
    omega
  unfold joinDot
  rw [← joinSep_append '.' hne1 hne2, List.take_append_drop]

theorem joinDot_take_one {parts : List Str} (h : parts ≠ []) :
    joinDot (parts.take 1) = parts.headD [] := by
  cases parts with
  | nil => exact absurd rfl h
  | cons p t => rfl

theorem take_ne_nil_of_le {k : Nat} (hk : 1 ≤ k) {l : List Str} (h : 1 ≤ l.length) :
    l.take k ≠ [] := by
  intro he
  have hl := List.length_take k l
  rw [he] at hl
  simp only [List.length_nil] at hl
  omega

theorem drop_ne_nil_of_lt {k : Nat} {l : List Str} (h : k < l.length) : l.drop k ≠ [] := by
  intro he
  have hl := List.length_drop k l
  rw [he] at hl
  simp only [List.length_nil] at hl
  omega

/-! ## Claims C4, C5, C6: the scope-resolution algorithm -/

/-- Claim C4 (confirmed): for every identifier string containing a colon — written
uniquely as `a ++ ':' :: b` with no colon in `a` — `extract_scope` splits on that
first colon only, trims surrounding whitespace from both halves, and returns
immediately, regardless of any dots elsewhere in the string. -/
theorem claim_C4_resolve_splits_on_first_colon (a b : Str) (h : ':' ∉ a) :
    extract_scope (a ++ ':' :: b) false = .ok (trimL a, trimL b) :=
  extract_scope_colon_eq b h

theorem claim_C4_witness :
    ':' ∉ "user.pilot".data ∧
    extract_scope "user.pilot:my.complex.name".data false =
      .ok ("user.pilot".data, "my.complex.name".data) := by
  refine ⟨by decide, ?_⟩
  have he : "user.pilot:my.complex.name".data =
      "user.pilot".data ++ ':' :: "my.complex.name".data := by decide
  rw [he, claim_C4_resolve_splits_on_first_colon "user.pilot".data "my.complex.name".data
    (by decide)]
  decide

/-- Claim C5 (confirmed): for every colon-free identifier containing at least one
dot, if it starts with `user` or `group` and has at least 3 dot-separated parts the
scope is the first two parts joined by a dot and the name the remaining parts joined
by dots (first part alone as scope when there are fewer than 3 parts); otherwise the
scope is all parts but the last joined by dots and the name is the last part. -/
theorem claim_C5_resolve_dot_form (s : Str) (hc : ':' ∉ s) (hd : '.' ∈ s) :
    extract_scope s false = .ok
      (if "user".data.isPrefixOf s || "group".data.isPrefixOf s then
         if 3 ≤ (splitOnC '.' s).length then
           (joinDot ((splitOnC '.' s).take 2), joinDot ((splitOnC '.' s).drop 2))
         else ((splitOnC '.' s).headD [], joinDot ((splitOnC '.' s).drop 1))
       else (joinDot (splitOnC '.' s).dropLast, (splitOnC '.' s).getLastD [])) :=
  extract_scope_dot_eq hc hd

theorem claim_C5_witness :
    ':' ∉ "group.atlas.mc.run456.output".data ∧
    '.' ∈ "group.atlas.mc.run456.output".data ∧
    extract_scope "group.atlas.mc.run456.output".data false =
      .ok ("group.atlas".data, "mc.run456.output".data) := by
  refine ⟨by decide, by decide, ?_⟩
  rw [claim_C5_resolve_dot_form "group.atlas.mc.run456.output".data (by decide) (by decide)]
  decide

/-- The Identifier invariant exactly as claim C6 states it: both components
non-empty, all characters in `[A-Za-z0-9._-]`, and colon-recomposition reproduces
the original combined identifier. -/
def identifierInvariant (s : Str) (p : Str × Str) : Prop :=
  p.1 ≠ [] ∧ p.2 ≠ [] ∧ (∀ ch ∈ p.1, idChar ch = true) ∧ (∀ ch ∈ p.2, idChar ch = true) ∧
    p.1 ++ ':' :: p.2 = s

instance (s : Str) (p : Str × Str) : Decidable (identifierInvariant s p) := by
  unfold identifierInvariant
  infer_instance

/-- Claim C6 counterexample: `": x y"` is accepted by `extract_scope`, but the
returned pair has an empty scope, a name containing a space, and does not
colon-recompose to the original string. -/
theorem claim_C6_cex :
    extract_scope ": x y".data false = .ok ([], "x y".data) ∧
    ¬ identifierInvariant ": x y".data ([], "x y".data) := by
  exact ⟨by decide, by decide⟩

/-- Claim C6 (corrected): the invariant holds under the well-formedness the
original claim presupposed.  For colon-form identifiers `a:b` whose halves are
non-empty and drawn from `[A-Za-z0-9._-]` (hence contain no whitespace to trim and
no colon), the returned pair is exactly `(a, b)`, non-empty, within the character
set, and colon-recomposition is lossless.  For colon-free dot-form identifiers
whose characters are in the character set and whose dot-segments are all
non-empty, the returned pair is non-empty, within the character set, and
recomposes the original identifier when joined with a dot (not a colon). -/
theorem claim_C6_identifier_invariant :
    (∀ a b : Str, ':' ∉ a → a ≠ [] → b ≠ [] →
       (∀ ch ∈ a, idChar ch = true) → (∀ ch ∈ b, idChar ch = true) →
       ∃ sc nm, extract_scope (a ++ ':' :: b) false = .ok (sc, nm) ∧
         sc ≠ [] ∧ nm ≠ [] ∧ (∀ ch ∈ sc, idChar ch = true) ∧
         (∀ ch ∈ nm, idChar ch = true) ∧ sc ++ ':' :: nm = a ++ ':' :: b) ∧
    (∀ s : Str, ':' ∉ s → '.' ∈ s →
       (∀ p ∈ splitOnC '.' s, p ≠ []) → (∀ ch ∈ s, idChar ch = true) →
       ∃ sc nm, extract_scope s false = .ok (sc, nm) ∧
         sc ≠ [] ∧ nm ≠ [] ∧ (∀ ch ∈ sc, idChar ch = true) ∧
         (∀ ch ∈ nm, idChar ch = true) ∧ sc ++ '.' :: nm = s) := by
  constructor
  · intro a b hc ha hb hcha hchb
    refine ⟨a, b, ?_, ha, hb, hcha, hchb, rfl⟩
    rw [extract_scope_colon_eq b hc,
        trimL_eq_self (fun x hx => idChar_not_space (hcha x hx)),
        trimL_eq_self (fun x hx => idChar_not_space (hchb x hx))]
  · intro s hc hd hp hch
    have h2 := two_le_splitOnC_length hd
    have hjoin : joinDot (splitOnC '.' s) = s := joinSep_splitOnC '.' s
    have heq := extract_scope_dot_eq hc hd
    have main : ∀ k : Nat, 1 ≤ k → k < (splitOnC '.' s).length →
        joinDot ((splitOnC '.' s).take k) ≠ [] ∧
        joinDot ((splitOnC '.' s).drop k) ≠ [] ∧
        joinDot ((splitOnC '.' s).take k) ++ '.' :: joinDot ((splitOnC '.' s).drop k) = s := by
      intro k h1 hk
      have hlen : 1 ≤ (splitOnC '.' s).length := by omega
      refine ⟨?_, ?_, ?_⟩
      · exact joinSep_ne_nil '.' (take_ne_nil_of_le h1 hlen)
          (fun p hm => hp p (List.take_subset k _ hm))
      · exact joinSep_ne_nil '.' (drop_ne_nil_of_lt hk)
          (fun p hm => hp p (List.drop_subset k _ hm))
      · rw [joinDot_split _ k h1 hk, hjoin]
    have chars : ∀ sc nm : Str, sc ++ '.' :: nm = s →
        (∀ ch ∈ sc, idChar ch = true) ∧ (∀ ch ∈ nm, idChar ch = true) := by
      intro sc nm hrec
      constructor
      · intro ch hm
        exact hch ch (by rw [← hrec]; exact List.mem_append_left _ hm)
      · intro ch hm
        exact hch ch (by rw [← hrec]; exact List.mem_append_right _ (List.mem_cons_of_mem _ hm))
    by_cases hu : ("user".data.isPrefixOf s || "group".data.isPrefixOf s) = true
    · by_cases h3 : 3 ≤ (splitOnC '.' s).length
      · obtain ⟨hne1, hne2, hrec⟩ := main 2 (by omega) (by omega)
        refine ⟨_, _, ?_, hne1, hne2, (chars _ _ hrec).1, (chars _ _ hrec).2, hrec⟩
        rw [heq, hu]
        simp [h3]
      · obtain ⟨hne1, hne2, hrec⟩ := main 1 (by omega) (by omega)
        rw [joinDot_take_one (splitOnC_ne_nil '.' s)] at hne1 hrec
        refine ⟨_, _, ?_, hne1, hne2, (chars _ _ hrec).1, (chars _ _ hrec).2, hrec⟩
        rw [heq, hu]
        simp [h3]
    · have hne : splitOnC '.' s ≠ [] := splitOnC_ne_nil '.' s
      have hlast : (splitOnC '.' s).getLastD [] = (splitOnC '.' s).getLast hne := by
        rw [List.getLastD_eq_getLast?, List.getLast?_eq_getLast _ hne]
        rfl
      have hdne : (splitOnC '.' s).dropLast ≠ [] := by
        intro he
        have := List.length_dropLast (splitOnC '.' s)
        rw [he] at this
        simp only [List.length_nil] at this
        omega
      have hrec : joinDot (splitOnC '.' s).dropLast ++ '.' :: (splitOnC '.' s).getLastD [] = s := by
        rw [hlast]
        have hstep : joinDot ((splitOnC '.' s).dropLast ++ [(splitOnC '.' s).getLast hne]) =
            joinDot (splitOnC '.' s).dropLast ++ '.' :: joinDot [(splitOnC '.' s).getLast hne] :=
          joinSep_append '.' hdne (by simp)
        have : joinDot [(splitOnC '.' s).getLast hne] = (splitOnC '.' s).getLast hne := rfl
        rw [this] at hstep
        rw [← hstep, List.dropLast_append_getLast hne, hjoin]
      have hne1 : joinDot (splitOnC '.' s).dropLast ≠ [] :=
        joinSep_ne_nil '.' hdne (fun p hm => hp p (List.dropLast_subset _ hm))
      have hne2 : (splitOnC '.' s).getLastD [] ≠ [] := by
        rw [hlast]
        exact hp _ (List.getLast_mem hne)
      refine ⟨_, _, ?_, hne1, hne2, (chars _ _ hrec).1, (chars _ _ hrec).2, hrec⟩
      rw [heq]
      simp only [Bool.not_eq_true] at hu
      rw [hu]
      simp

theorem claim_C6_witness :
    (':' ∉ "user.pilot".data ∧ "user.pilot".data ≠ ([] : Str) ∧ "d1".data ≠ ([] : Str) ∧
      (∃ sc nm, extract_scope ("user.pilot".data ++ ':' :: "d1".data) false = .ok (sc, nm) ∧
        sc ≠ [] ∧ nm ≠ [] ∧ (∀ ch ∈ sc, idChar ch = true) ∧
        (∀ ch ∈ nm, idChar ch = true) ∧ sc ++ ':' :: nm = "user.pilot".data ++ ':' :: "d1".data)) ∧
    (∃ sc nm, extract_scope "data.atlas.output".data false = .ok (sc, nm) ∧
      sc ≠ [] ∧ nm ≠ [] ∧ (∀ ch ∈ sc, idChar ch = true) ∧
      (∀ ch ∈ nm, idChar ch = true) ∧ sc ++ '.' :: nm = "data.atlas.output".data) := by
  constructor
  · exact ⟨by decide, by decide, by decide,
      claim_C6_identifier_invariant.1 "user.pilot".data "d1".data (by decide) (by decide)
        (by decide) (by decide) (by decide)⟩
  · exact claim_C6_identifier_invariant.2 "data.atlas.output".data (by decide) (by decide)
      (by decide) (by decide)

/-! ## Claim C7: FileRecord construction -/

theorem validate_lfn_cases (l : Str) :
    validate_lfn l = .ok true ∨ ∃ m, validate_lfn l = .error (.validationError m) := by
  unfold validate_lfn
  repeat' split
  all_goals first
    | exact Or.inl rfl
    | exact Or.inr ⟨_, rfl⟩

theorem validate_pfn_cases (p : Str) :
    validate_pfn p = .ok true ∨ ∃ m, validate_pfn p = .error (.validationError m) := by
  unfold validate_pfn
  repeat' split
  all_goals first
    | exact Or.inl rfl
    | exact Or.inr ⟨_, rfl⟩

theorem validate_file_size_cases (s : Int) :
    validate_file_size s = .ok true ∨ ∃ m, validate_file_size s = .error (.validationError m) := by
  unfold validate_file_size
  repeat' split
  all_goals first
    | exact Or.inl rfl
    | exact Or.inr ⟨_, rfl⟩

theorem validate_checksum_cases (c : Str) :
    validate_checksum c = .ok true ∨ ∃ m, validate_checksum c = .error (.validationError m) := by
  unfold validate_checksum
  repeat' split
  all_goals first
    | exact Or.inl rfl
    | exact Or.inr ⟨_, rfl⟩

/-- Claim C7 (corrected): `FileInfo` construction is all-or-nothing over the FOUR
fields the constructor validates (logical-name, physical-location, size, checksum):
a record is produced exactly when all four pass, the produced record is fully
determined, and any failure is a `ValidationError` with no record produced.  The
`scope` field, contrary to the original claim, is stored without validation
(see the counterexample). -/
theorem claim_C7_fileinfo_all_or_nothing (lfn pfn : Str) (size : Int) (checksum : Str)
    (guid scope : Option Str) (metadata : List (Str × Str)) :
    (∀ fi, FileInfo.make lfn pfn size checksum guid scope metadata = .ok fi →
       validate_lfn lfn = .ok true ∧ validate_pfn pfn = .ok true ∧
       validate_file_size size = .ok true ∧ validate_checksum checksum = .ok true) ∧
    (validate_lfn lfn = .ok true → validate_pfn pfn = .ok true →
     validate_file_size size = .ok true → validate_checksum checksum = .ok true →
       FileInfo.make lfn pfn size checksum guid scope metadata =
         .ok { lfn := lfn, pfn := pfn, size := size, checksum := checksum,
               guid := guid.getD generated_guid, scope := scope,
               metadata :=
                 if metadata.any (fun p => decide (p.1 = "filename".data)) then metadata
                 else metadata ++ [("filename".data, basenameL lfn)] }) ∧
    (∀ e, FileInfo.make lfn pfn size checksum guid scope metadata = .error e →
       ∃ m, e = .validationError m) := by
  refine ⟨?_, ?_, ?_⟩
  · intro fi h
    rcases validate_lfn_cases lfn with h1 | ⟨m, h1⟩
    · rcases validate_pfn_cases pfn with h2 | ⟨m, h2⟩
      · rcases validate_file_size_cases size with h3 | ⟨m, h3⟩
        · rcases validate_checksum_cases checksum with h4 | ⟨m, h4⟩
          · exact ⟨h1, h2, h3, h4⟩
          · simp [FileInfo.make, Bind.bind, Except.bind, h1, h2, h3, h4] at h
        · simp [FileInfo.make, Bind.bind, Except.bind, h1, h2, h3] at h
      · simp [FileInfo.make, Bind.bind, Except.bind, h1, h2] at h
    · simp [FileInfo.make, Bind.bind, Except.bind, h1] at h
  · intro h1 h2 h3 h4
    simp [FileInfo.make, Bind.bind, Except.bind, h1, h2, h3, h4]
  · intro e h
    rcases validate_lfn_cases lfn with h1 | ⟨m, h1⟩
    · rcases validate_pfn_cases pfn with h2 | ⟨m, h2⟩
      · rcases validate_file_size_cases size with h3 | ⟨m, h3⟩
        · rcases validate_checksum_cases checksum with h4 | ⟨m, h4⟩
          · simp [FileInfo.make, Bind.bind, Except.bind, h1, h2, h3, h4] at h
          · simp [FileInfo.make, Bind.bind, Except.bind, h1, h2, h3, h4] at h
            exact ⟨m, h.symm⟩
        · simp [FileInfo.make, Bind.bind, Except.bind, h1, h2, h3] at h
          exact ⟨m, h.symm⟩
      · simp [FileInfo.make, Bind.bind, Except.bind, h1, h2] at h
        exact ⟨m, h.symm⟩
    · simp [FileInfo.make, Bind.bind, Except.bind, h1] at h
      exact ⟨m, h.symm⟩

/-- Claim C7 counterexample: a `FileInfo` is constructed even though its scope fails
`validate_scope` — the constructor validates only four of the five fields the claim
names. -/
theorem claim_C7_cex :
    (∃ fi, FileInfo.make "f.root".data "/data/f.root".data 1 "ad:12345678".data none
        (some "!!!".data) [] = .ok fi) ∧
    validate_scope "!!!".data = .error (.validationError "Scope contains invalid characters") := by
  exact ⟨⟨_, rfl⟩, by decide⟩

theorem claim_C7_witness :
    validate_lfn "f.root".data = .ok true ∧
    validate_pfn "/data/f.root".data = .ok true ∧
    validate_file_size 1 = .ok true ∧
    validate_checksum "ad:12345678".data = .ok true ∧
    FileInfo.make "f.root".data "/data/f.root".data 1 "ad:12345678".data none none [] =
      .ok { lfn := "f.root".data, pfn := "/data/f.root".data, size := 1,
            checksum := "ad:12345678".data, guid := (none : Option Str).getD generated_guid,
            scope := none,
            metadata :=
              if ([] : List (Str × Str)).any (fun p => decide (p.1 = "filename".data)) then []
              else [] ++ [("filename".data, basenameL "f.root".data)] } :=
  ⟨by decide, by decide, by decide, by decide,
   (claim_C7_fileinfo_all_or_nothing "f.root".data "/data/f.root".data 1 "ad:12345678".data
       none none []).2.1 (by decide) (by decide) (by decide) (by decide)⟩

/-! ## Claim C9: idempotence of dataset creation against a well-behaved catalog -/

theorem catFind_append_of_none {cat : Catalog} {sc nm : Str}
    (h : catFind cat sc nm = none) (d : CatDs) (hsc : d.scope = sc) (hnm : d.name = nm) :
    catFind (cat ++ [d]) sc nm = some d := by
  unfold catFind at h ⊢
  rw [List.find?_append, h]
  simp [List.find?, hsc, hnm]

theorem catFind_catUpdate (cat : Catalog) (sc nm : Str) (f : CatDs → CatDs)
    (hf : ∀ d, (f d).scope = d.scope ∧ (f d).name = d.name) :
    catFind (catUpdate cat sc nm f) sc nm = (catFind cat sc nm).map f := by
  unfold catFind catUpdate
  rw [List.find?_map]
  have hpg : ((fun d => decide (d.scope = sc) && decide (d.name = nm)) ∘
      (fun d => if d.scope = sc ∧ d.name = nm then f d else d)) =
      (fun d => decide (d.scope = sc) && decide (d.name = nm)) := by
    funext d
    by_cases hd : d.scope = sc ∧ d.name = nm
    · simp [hd, (hf d).1, (hf d).2]
    · simp [hd]
  rw [hpg]
  cases hfind : List.find? (fun d => decide (d.scope = sc) && decide (d.name = nm)) cat with
  | none => rfl
  | some d0 =>
    have hp := List.find?_some hfind
    simp only [Bool.and_eq_true, decide_eq_true_eq] at hp
    simp [hp.1, hp.2]


theorem honest_create_ok (h : Str → String) (name : Str) (scope : Option Str)
    (meta : Option MetaArgs) (ldays : Option Int) (sc dn : Str) (st : St Catalog)
    (hv : validate_dataset_name name = .ok true)
    (hr : resolveScopeValidated scope name = .ok (sc, dn)) :
    (create_dataset (honestClient h) name scope meta ldays true st).1 =
      .ok { duid := generate_vuid h sc dn, version := 1, vuid := generate_vuid h sc dn,
            scope := sc, name := dn } ∧
    ∃ d, catFind (create_dataset (honestClient h) name scope meta ldays true st).2.cstate
          sc dn = some d ∧ d.is_open = true := by
  cases hcf : catFind st.cstate sc dn with
  | none =>
    have hf1 : catFind (st.cstate ++ [{ scope := sc, name := dn, is_open := false, meta := [] }]) sc dn =
        some { scope := sc, name := dn, is_open := false, meta := [] } :=
      catFind_append_of_none hcf _ rfl rfl
    cases ldays with
    | none =>
      constructor
      · simp [create_dataset, hv, hr, callAddDataset, callGetMetadata, callSetStatus,
          honestClient, hcf, hf1]
      · simp [create_dataset, hv, hr, callAddDataset, callGetMetadata, callSetStatus,
          honestClient, hcf, hf1, catFind_catUpdate]
    | some days =>
      constructor
      · simp [create_dataset, hv, hr, callAddDataset, callSetMetadata, callGetMetadata,
          callSetStatus, honestClient, hcf, hf1, catFind_catUpdate]
      · simp [create_dataset, hv, hr, callAddDataset, callSetMetadata, callGetMetadata,
          callSetStatus, honestClient, hcf, hf1, catFind_catUpdate]
  | some d0 =>
    cases ldays with
    | none =>
      cases hio : d0.is_open with
      | false =>
        constructor
        · simp [create_dataset, hv, hr, callAddDataset, callGetMetadata, callSetStatus,
            honestClient, hcf, hio]
        · simp [create_dataset, hv, hr, callAddDataset, callGetMetadata, callSetStatus,
            honestClient, hcf, hio, catFind_catUpdate]
      | true =>
        constructor
        · simp [create_dataset, hv, hr, callAddDataset, callGetMetadata, callSetStatus,
            honestClient, hcf, hio]
        · simp only [create_dataset, hv, hr, callAddDataset, callGetMetadata, callSetStatus,
            honestClient, hcf, hio]
          exact ⟨d0, by simp [honestClient, hcf, hio], hio⟩
    | some days =>
      cases hio : d0.is_open with
      | false =>
        constructor
        · simp [create_dataset, hv, hr, callAddDataset, callSetMetadata, callGetMetadata,
            callSetStatus, honestClient, hcf, hio, catFind_catUpdate]
        · simp [create_dataset, hv, hr, callAddDataset, callSetMetadata, callGetMetadata,
            callSetStatus, honestClient, hcf, hio, catFind_catUpdate]
      | true =>
        constructor
        · simp [create_dataset, hv, hr, callAddDataset, callSetMetadata, callGetMetadata,
            callSetStatus, honestClient, hcf, hio, catFind_catUpdate]
        · simp [create_dataset, hv, hr, callAddDataset, callSetMetadata, callGetMetadata,
            callSetStatus, honestClient, hcf, hio, catFind_catUpdate]

/-- Claim C9 (confirmed): against a well-behaved catalog, `create_dataset` is
idempotent — for every identifier passing validation, calling it twice in
succession never raises (the second call's "already exists" is swallowed), the
second call returns the identical result record (same scope, name, and VUID, the
VUID being deterministically derived from `hash(scope ++ ":" ++ name)`), and the
dataset is left OPEN. -/
theorem claim_C9_create_dataset_idempotent (h : Str → String) (name : Str)
    (scope : Option Str) (meta : Option MetaArgs) (ldays : Option Int) (sc dn : Str)
    (st : St Catalog)
    (hv : validate_dataset_name name = .ok true)
    (hr : resolveScopeValidated scope name = .ok (sc, dn)) :
    ∃ di st1 st2,
      create_dataset (honestClient h) name scope meta ldays true st = (.ok di, st1) ∧
      create_dataset (honestClient h) name scope meta ldays true st1 = (.ok di, st2) ∧
      di.scope = sc ∧ di.name = dn ∧
      di.vuid = format_vuid (h (sc ++ ':' :: dn)) ∧
      ∃ d, catFind st2.cstate sc dn = some d ∧ d.is_open = true := by
  obtain ⟨h1, _⟩ := honest_create_ok h name scope meta ldays sc dn st hv hr
  obtain ⟨h2, hopen⟩ := honest_create_ok h name scope meta ldays sc dn
    (create_dataset (honestClient h) name scope meta ldays true st).2 hv hr
  exact ⟨⟨generate_vuid h sc dn, 1, generate_vuid h sc dn, sc, dn⟩, _, _,
    Prod.ext h1 rfl, Prod.ext h2 rfl, rfl, rfl, rfl, hopen⟩

theorem claim_C9_witness :
    validate_dataset_name "data.run1".data = .ok true ∧
    resolveScopeValidated none "data.run1".data = .ok ("data".data, "run1".data) ∧
    ∃ di st1 st2,
      create_dataset (honestClient (fun _ => "0123456789abcdef0123456789abcdef"))
          "data.run1".data none none none true
          ({ cstate := [] } : St Catalog) = (.ok di, st1) ∧
      create_dataset (honestClient (fun _ => "0123456789abcdef0123456789abcdef"))
          "data.run1".data none none none true st1 = (.ok di, st2) ∧
      di.scope = "data".data ∧ di.name = "run1".data ∧
      di.vuid = format_vuid ((fun _ => "0123456789abcdef0123456789abcdef")
        ("data".data ++ ':' :: "run1".data)) ∧
      ∃ d, catFind st2.cstate "data".data "run1".data = some d ∧ d.is_open = true :=
  ⟨by decide, by decide,
   claim_C9_create_dataset_idempotent (fun _ => "0123456789abcdef0123456789abcdef")
     "data.run1".data none none none "data".data "run1".data { cstate := [] }
     (by decide) (by decide)⟩

/-! ## Claims C2, C3: batch registration -/

theorem amem_iff {κ α : Type} [DecidableEq κ] {m : List (κ × α)} {k : κ} :
    amem m k = true ↔ k ∈ m.map Prod.fst := by
  constructor
  · intro hm
    obtain ⟨p, hp, he⟩ := List.any_eq_true.mp hm
    exact List.mem_map.mpr ⟨p, hp, of_decide_eq_true he⟩
  · intro hm
    obtain ⟨p, hp, he⟩ := List.mem_map.mp hm
    exact List.any_eq_true.mpr ⟨p, hp, decide_eq_true he⟩

theorem aset_of_not_mem {κ α : Type} [DecidableEq κ] {m : List (κ × α)} {k : κ}
    (h : ¬ k ∈ m.map Prod.fst) (v : α) : aset m k v = m ++ [(k, v)] := by
  unfold aset
  rw [if_neg]
  intro hm
  exact h (amem_iff.mp hm)

theorem amem_eq_false {κ α : Type} [DecidableEq κ] {m : List (κ × α)} {k : κ}
    (h : ¬ k ∈ m.map Prod.fst) : amem m k = false := by
  rw [Bool.eq_false_iff]
  intro hm
  exact h (amem_iff.mp hm)

theorem aget?_of_mem_nodup {κ α : Type} [DecidableEq κ] :
    ∀ {m : List (κ × α)} {k : κ} {v : α},
      (m.map Prod.fst).Nodup → (k, v) ∈ m → aget? m k = some v
  | [], _, _, _, hm => absurd hm (List.not_mem_nil _)
  | (k0, v0) :: t, k, v, hnd, hm => by
    have hnd' : ¬ k0 ∈ t.map Prod.fst ∧ (t.map Prod.fst).Nodup := by
      rw [List.map_cons, List.nodup_cons] at hnd
      exact hnd
    rcases List.mem_cons.mp hm with he | ht
    · rw [Prod.mk.injEq] at he
      obtain ⟨he1, he2⟩ := he
      subst he1
      subst he2
      unfold aget?
      rw [List.find?_cons_of_pos t (by simp)]
      rfl
    · have hk : k ∈ t.map Prod.fst := List.mem_map.mpr ⟨(k, v), ht, rfl⟩
      have hne : ¬ k0 = k := fun he => hnd'.1 (he ▸ hk)
      have ih : aget? t k = some v := aget?_of_mem_nodup hnd'.2 ht
      unfold aget? at ih ⊢
      rw [List.find?_cons_of_neg t (by simp [hne])]
      exact ih

/-- Whether a single-file `register_file_replica` against a stateless client
succeeds (its `add_replicas` call does not raise a genuine error). -/
def indivRegOk (c : Client Unit) (rse : Str) (fi : FileInfo) : Bool :=
  match (c.addReplicas () rse [fi.to_rucio_dict rse]).1 with
  | .err _ => false
  | _ => true

/-- The per-batch segment of the success map produced by `register_multiple_files`
against a stateless client. -/
def batchEntries (c : Client Unit) (rse : Str) (b : List FileInfo) : List (Str × Bool) :=
  if (c.addReplicas () rse (b.map (fun fi => fi.to_rucio_dict rse))).1 = ReplResp.ok
  then b.map (fun fi => (fi.lfn, true))
  else b.map (fun fi => (fi.lfn, indivRegOk c rse fi))

theorem batchEntries_keys (c : Client Unit) (rse : Str) (b : List FileInfo) :
    (batchEntries c rse b).map Prod.fst = b.map (·.lfn) := by
  unfold batchEntries
  split <;> simp [List.map_map, Function.comp]

theorem mark_batch_success_spec {σ : Type} (rse : Str) :
    ∀ (b : List FileInfo) (m : List (Str × Bool)) (st : St σ),
      (∀ fi ∈ b, ¬ fi.lfn ∈ m.map Prod.fst) → (b.map (·.lfn)).Nodup →
      (mark_batch_success rse b m st).1 = m ++ b.map (fun fi => (fi.lfn, true))
  | [], m, st, _, _ => by simp [mark_batch_success]
  | fi :: rest, m, st, hfresh, hnd => by
    have hmem : ¬ fi.lfn ∈ m.map Prod.fst := hfresh fi (List.mem_cons_self _ _)
    have hnd' : ¬ fi.lfn ∈ rest.map (·.lfn) ∧ (rest.map (·.lfn)).Nodup := by
      rw [List.map_cons, List.nodup_cons] at hnd
      exact hnd
    have ih := mark_batch_success_spec rse rest (aset m fi.lfn true)
      { st with registered_files := insertSet st.registered_files (scopeKey fi.scope fi.lfn) }
      (by
        intro g hg hin
        rw [aset_of_not_mem hmem true, List.map_append] at hin
        rcases List.mem_append.mp hin with hin | hin
        · exact hfresh g (List.mem_cons_of_mem _ hg) hin
        · simp only [List.map_cons, List.map_nil, List.mem_singleton] at hin
          exact hnd'.1 (List.mem_map.mpr ⟨g, hg, hin⟩))
      hnd'.2
    have hstep : mark_batch_success rse (fi :: rest) m st =
        mark_batch_success rse rest (aset m fi.lfn true)
          { st with registered_files :=
              insertSet st.registered_files (scopeKey fi.scope fi.lfn) } := by
      simp [mark_batch_success, amem_eq_false hmem]
    rw [hstep, ih, aset_of_not_mem hmem true, List.append_assoc]
    rfl

theorem register_file_replica_unit (c : Client Unit) (fi : FileInfo) (rse : Str)
    (st : St Unit) :
    (register_file_replica c fi rse true st).1 =
      (if indivRegOk c rse fi then
        .ok true
       else
        .error (.fileRegistrationError
          ("Failed to register file replica " ++ String.mk fi.lfn ++ ": " ++
            (match (c.addReplicas () rse [fi.to_rucio_dict rse]).1 with
             | .err m => m
             | _ => "")))) := by
  unfold register_file_replica indivRegOk callAddReplicas
  cases hr : (c.addReplicas () rse [fi.to_rucio_dict rse]).1 with
  | ok => simp [hr]
  | alreadyExists => simp [hr]
  | err m => simp [hr]

theorem retry_batch_individually_spec (c : Client Unit) (rse : Str) :
    ∀ (b : List FileInfo) (m : List (Str × Bool)) (st : St Unit),
      (∀ fi ∈ b, ¬ fi.lfn ∈ m.map Prod.fst) → (b.map (·.lfn)).Nodup →
      (retry_batch_individually c rse b m st).1 =
        m ++ b.map (fun fi => (fi.lfn, indivRegOk c rse fi))
  | [], m, st, _, _ => by simp [retry_batch_individually]
  | fi :: rest, m, st, hfresh, hnd => by
    obtain ⟨⟨⟩, tr, rf, cd⟩ := st
    have hmem : ¬ fi.lfn ∈ m.map Prod.fst := hfresh fi (List.mem_cons_self _ _)
    have hnd' : ¬ fi.lfn ∈ rest.map (·.lfn) ∧ (rest.map (·.lfn)).Nodup := by
      rw [List.map_cons, List.nodup_cons] at hnd
      exact hnd
    have hfresh' : ∀ v : Bool, ∀ g ∈ rest, ¬ g.lfn ∈ (aset m fi.lfn v).map Prod.fst := by
      intro v g hg hin
      rw [aset_of_not_mem hmem v, List.map_append] at hin
      rcases List.mem_append.mp hin with hin | hin
      · exact hfresh g (List.mem_cons_of_mem _ hg) hin
      · simp only [List.map_cons, List.map_nil, List.mem_singleton] at hin
        exact hnd'.1 (List.mem_map.mpr ⟨g, hg, hin⟩)
    cases hr : (c.addReplicas () rse [fi.to_rucio_dict rse]).1 with
    | ok =>
      have hi : indivRegOk c rse fi = true := by simp [indivRegOk, hr]
      have hreg : register_file_replica c fi rse true ⟨(), tr, rf, cd⟩ =
          (.ok true, ⟨(), tr ++ [.addReplicas rse [fi.to_rucio_dict rse]],
            insertSet rf (scopeKey fi.scope fi.lfn), cd⟩) := by
        unfold register_file_replica callAddReplicas
        simp [hr]
      have ih := retry_batch_individually_spec c rse rest (aset m fi.lfn true)
        ⟨(), tr ++ [.addReplicas rse [fi.to_rucio_dict rse]],
          insertSet rf (scopeKey fi.scope fi.lfn), cd⟩
        (hfresh' true) hnd'.2
      have hstep : retry_batch_individually c rse (fi :: rest) m ⟨(), tr, rf, cd⟩ =
          retry_batch_individually c rse rest (aset m fi.lfn true)
            ⟨(), tr ++ [.addReplicas rse [fi.to_rucio_dict rse]],
              insertSet rf (scopeKey fi.scope fi.lfn), cd⟩ := by
        simp [retry_batch_individually, amem_eq_false hmem, hreg]
      rw [hstep, ih, aset_of_not_mem hmem true, List.append_assoc]
      simp [hi]
    | alreadyExists =>
      have hi : indivRegOk c rse fi = true := by simp [indivRegOk, hr]
      have hreg : register_file_replica c fi rse true ⟨(), tr, rf, cd⟩ =
          (.ok true, ⟨(), tr ++ [.addReplicas rse [fi.to_rucio_dict rse]],
            insertSet rf (scopeKey fi.scope fi.lfn), cd⟩) := by
        unfold register_file_replica callAddReplicas
        simp [hr]
      have ih := retry_batch_individually_spec c rse rest (aset m fi.lfn true)
        ⟨(), tr ++ [.addReplicas rse [fi.to_rucio_dict rse]],
          insertSet rf (scopeKey fi.scope fi.lfn), cd⟩
        (hfresh' true) hnd'.2
      have hstep : retry_batch_individually c rse (fi :: rest) m ⟨(), tr, rf, cd⟩ =
          retry_batch_individually c rse rest (aset m fi.lfn true)
            ⟨(), tr ++ [.addReplicas rse [fi.to_rucio_dict rse]],
              insertSet rf (scopeKey fi.scope fi.lfn), cd⟩ := by
        simp [retry_batch_individually, amem_eq_false hmem, hreg]
      rw [hstep, ih, aset_of_not_mem hmem true, List.append_assoc]
      simp [hi]
    | err msg =>
      have hi : indivRegOk c rse fi = false := by simp [indivRegOk, hr]
      have hreg : register_file_replica c fi rse true ⟨(), tr, rf, cd⟩ =
          (.error (.fileRegistrationError
            ("Failed to register file replica " ++ String.mk fi.lfn ++ ": " ++ msg)),
           ⟨(), tr ++ [.addReplicas rse [fi.to_rucio_dict rse]], rf, cd⟩) := by
        unfold register_file_replica callAddReplicas
        simp [hr]
      have ih := retry_batch_individually_spec c rse rest (aset m fi.lfn false)
        ⟨(), tr ++ [.addReplicas rse [fi.to_rucio_dict rse]], rf, cd⟩
        (hfresh' false) hnd'.2
      have hstep : retry_batch_individually c rse (fi :: rest) m ⟨(), tr, rf, cd⟩ =
          retry_batch_individually c rse rest (aset m fi.lfn false)
            ⟨(), tr ++ [.addReplicas rse [fi.to_rucio_dict rse]], rf, cd⟩ := by
        simp [retry_batch_individually, amem_eq_false hmem, hreg]
      rw [hstep, ih, aset_of_not_mem hmem false, List.append_assoc]
      simp [hi]

theorem chunksAux_flatten {α : Type} (k : Nat) :
    ∀ (fuel : Nat) (l : List α), l.length ≤ fuel → (chunksAux k fuel l).flatten = l := by
  intro fuel
  induction fuel with
  | zero =>
    intro l h
    have hl : l = [] := List.eq_nil_of_length_eq_zero (Nat.le_zero.mp h)
    subst hl
    rfl
  | succ n ih =>
    intro l h
    cases l with
    | nil => rfl
    | cons x xs =>
      simp only [chunksAux, List.flatten_cons]
      rw [ih ((x :: xs).drop (k + 1))
        (by simp only [List.length_drop, List.length_cons] at h ⊢; omega)]
      exact List.take_append_drop _ _

theorem chunks_flatten {α : Type} (bs : Nat) (l : List α) : (chunks bs l).flatten = l :=
  chunksAux_flatten _ _ _ le_rfl

theorem register_batches_spec (c : Client Unit) (rse : Str) :
    ∀ (bss : List (List FileInfo)) (m : List (Str × Bool)) (st : St Unit),
      (m.map Prod.fst ++ (bss.flatten.map (·.lfn))).Nodup →
      (register_batches c rse bss m st).1 = m ++ (bss.map (batchEntries c rse)).flatten
  | [], m, st, _ => by simp [register_batches]
  | [] :: rest, m, st, hnd => by
    have hnd' : (m.map Prod.fst ++ (rest.flatten.map (·.lfn))).Nodup := by
      simpa using hnd
    have ih := register_batches_spec c rse rest m st hnd'
    simp only [register_batches, List.map_nil, List.isEmpty_nil, if_true]
    rw [ih]
    have hbe : batchEntries c rse [] = [] := by
      unfold batchEntries
      split <;> rfl
    simp [hbe]
  | (f :: bf) :: rest, m, st, hnd => by
    obtain ⟨⟨⟩, tr, rf, cd⟩ := st
    have hnd2 : (m.map Prod.fst ++
        (((f :: bf).map (·.lfn)) ++ (rest.flatten.map (·.lfn)))).Nodup := by
      simpa [List.flatten_cons, List.map_append] using hnd
    obtain ⟨hndm, hndX, hdisj⟩ := List.nodup_append.mp hnd2
    obtain ⟨hndb, hndrest, hdisj2⟩ := List.nodup_append.mp hndX
    have hfresh : ∀ fi ∈ f :: bf, ¬ fi.lfn ∈ m.map Prod.fst := by
      intro fi hfi hin
      exact hdisj hin (List.mem_append_left _ (List.mem_map.mpr ⟨fi, hfi, rfl⟩))
    have hnd_next : ∀ (entries : List (Str × Bool)),
        entries.map Prod.fst = (f :: bf).map (·.lfn) →
        ((m ++ entries).map Prod.fst ++ (rest.flatten.map (·.lfn))).Nodup := by
      intro entries hkeys
      rw [List.map_append, hkeys, List.append_assoc]
      exact hnd2
    cases hr : (c.addReplicas () rse ((f :: bf).map (fun fi => fi.to_rucio_dict rse))).1 with
    | ok =>
      have hbe : batchEntries c rse (f :: bf) = (f :: bf).map (fun fi => (fi.lfn, true)) := by
        unfold batchEntries
        rw [if_pos hr]
      rcases hm : mark_batch_success rse (f :: bf) m
          ⟨(), tr ++ [.addReplicas rse ((f :: bf).map (fun fi => fi.to_rucio_dict rse))],
            rf, cd⟩ with ⟨ms, st2⟩
      have hms : ms = m ++ (f :: bf).map (fun fi => (fi.lfn, true)) := by
        have := mark_batch_success_spec rse (f :: bf) m
          ⟨(), tr ++ [.addReplicas rse ((f :: bf).map (fun fi => fi.to_rucio_dict rse))],
            rf, cd⟩ hfresh hndb
        rw [hm] at this
        exact this
      have ih := register_batches_spec c rse rest ms st2
        (by rw [hms]; exact hnd_next _ (by simp [List.map_map, Function.comp]))
      have hstep : (register_batches c rse ((f :: bf) :: rest) m ⟨(), tr, rf, cd⟩).1 =
          (register_batches c rse rest ms st2).1 := by
        simp only [register_batches, callAddReplicas, hr, hm]
        rfl
      rw [hstep, ih, hms]
      simp [hbe, List.append_assoc]
    | alreadyExists =>
      have hbe : batchEntries c rse (f :: bf) =
          (f :: bf).map (fun fi => (fi.lfn, indivRegOk c rse fi)) := by
        unfold batchEntries
        rw [if_neg (by rw [hr]; intro hx; exact nomatch hx)]
      rcases hm : retry_batch_individually c rse (f :: bf) m
          ⟨(), tr ++ [.addReplicas rse ((f :: bf).map (fun fi => fi.to_rucio_dict rse))],
            rf, cd⟩ with ⟨ms, st2⟩
      have hms : ms = m ++ (f :: bf).map (fun fi => (fi.lfn, indivRegOk c rse fi)) := by
        have := retry_batch_individually_spec c rse (f :: bf) m
          ⟨(), tr ++ [.addReplicas rse ((f :: bf).map (fun fi => fi.to_rucio_dict rse))],
            rf, cd⟩ hfresh hndb
        rw [hm] at this
        exact this
      have ih := register_batches_spec c rse rest ms st2
        (by rw [hms]; exact hnd_next _ (by simp [List.map_map, Function.comp]))
      have hstep : (register_batches c rse ((f :: bf) :: rest) m ⟨(), tr, rf, cd⟩).1 =
          (register_batches c rse rest ms st2).1 := by
        simp only [register_batches, callAddReplicas, hr, hm]
        rfl
      rw [hstep, ih, hms]
      simp [hbe, List.append_assoc]
    | err msg =>
      have hbe : batchEntries c rse (f :: bf) =
          (f :: bf).map (fun fi => (fi.lfn, indivRegOk c rse fi)) := by
        unfold batchEntries
        rw [if_neg (by rw [hr]; intro hx; exact nomatch hx)]
      rcases hm : retry_batch_individually c rse (f :: bf) m
          ⟨(), tr ++ [.addReplicas rse ((f :: bf).map (fun fi => fi.to_rucio_dict rse))],
            rf, cd⟩ with ⟨ms, st2⟩
      have hms : ms = m ++ (f :: bf).map (fun fi => (fi.lfn, indivRegOk c rse fi)) := by
        have := retry_batch_individually_spec c rse (f :: bf) m
          ⟨(), tr ++ [.addReplicas rse ((f :: bf).map (fun fi => fi.to_rucio_dict rse))],
            rf, cd⟩ hfresh hndb
        rw [hm] at this
        exact this
      have ih := register_batches_spec c rse rest ms st2
        (by rw [hms]; exact hnd_next _ (by simp [List.map_map, Function.comp]))
      have hstep : (register_batches c rse ((f :: bf) :: rest) m ⟨(), tr, rf, cd⟩).1 =
          (register_batches c rse rest ms st2).1 := by
        simp only [register_batches, callAddReplicas, hr, hm]
        rfl
      rw [hstep, ih, hms]
      simp [hbe, List.append_assoc]

theorem register_multiple_files_pos_ok {σ : Type} (c : Client σ) (files : List FileInfo)
    (rse : Str) (bs : Int) (hbs : 1 ≤ bs) (st : St σ) :
    register_multiple_files c files rse bs st =
      (.ok (register_batches c rse (chunks bs.toNat files) [] st).1,
       (register_batches c rse (chunks bs.toNat files) [] st).2) := by
  unfold register_multiple_files
  rw [if_neg (by omega), if_neg (by simp; omega)]

/-- Claim C3 (corrected & amended): for every list of file records with pairwise
distinct logical names and every positive batch size, `register_multiple_files`
returns a success map whose keys are exactly the input records' logical names, in
order (one entry per record, none dropped), and whenever a whole-batch registration
call fails, every record of that batch is individually retried with its per-record
success recorded independently.  (The original claim, quantifying over lists with
repeated logical names, is refuted by the counterexample.) -/
theorem claim_C3_register_multiple_files (c : Client Unit) (files : List FileInfo)
    (rse : Str) (bs : Int) (st : St Unit) (hbs : 1 ≤ bs)
    (hnd : (files.map (·.lfn)).Nodup) :
    ∃ m st',
      register_multiple_files c files rse bs st = (.ok m, st') ∧
      m.map Prod.fst = files.map (·.lfn) ∧
      ∀ chunk ∈ chunks bs.toNat files,
        (c.addReplicas () rse (chunk.map (fun fi => fi.to_rucio_dict rse))).1 ≠ ReplResp.ok →
        ∀ fi ∈ chunk, aget? m fi.lfn = some (indivRegOk c rse fi) := by
  have hndflat : (([] : List (Str × Bool)).map Prod.fst ++
      ((chunks bs.toNat files).flatten.map (·.lfn))).Nodup := by
    rw [chunks_flatten]
    simpa using hnd
  have hspec := register_batches_spec c rse (chunks bs.toNat files) [] st hndflat
  have hkeys : (register_batches c rse (chunks bs.toNat files) [] st).1.map Prod.fst =
      files.map (·.lfn) := by
    rw [hspec]
    simp only [List.nil_append, List.map_flatten, List.map_map]
    have : ((chunks bs.toNat files).map (batchEntries c rse)).map (List.map Prod.fst) =
        (chunks bs.toNat files).map (fun b => b.map (·.lfn)) := by
      rw [List.map_map]
      exact List.map_congr_left (fun b _ => batchEntries_keys c rse b)
    rw [List.map_map] at this
    rw [this, ← List.map_flatten, chunks_flatten]
  refine ⟨_, _, register_multiple_files_pos_ok c files rse bs hbs st, hkeys, ?_⟩
  intro chunk hchunk hfail fi hfi
  have hin : (fi.lfn, indivRegOk c rse fi) ∈
      (register_batches c rse (chunks bs.toNat files) [] st).1 := by
    rw [hspec]
    simp only [List.nil_append]
    refine List.mem_flatten.mpr ⟨batchEntries c rse chunk, List.mem_map.mpr ⟨chunk, hchunk, rfl⟩, ?_⟩
    unfold batchEntries
    rw [if_neg hfail]
    exact List.mem_map.mpr ⟨fi, hfi, rfl⟩
  exact aget?_of_mem_nodup (by rw [hkeys]; exact hnd) hin

/-- Two file records sharing the same logical name (with different physical
locations and scopes), and a third with a distinct one. -/
def fileA : FileInfo :=
  { lfn := "f.root".data, pfn := "/a/f.root".data, size := 1,
    checksum := "ad:12345678".data, guid := "g1".data, scope := some "s1".data,
    metadata := [] }

def fileB : FileInfo :=
  { fileA with pfn := "/b/f.root".data, guid := "g2".data, scope := some "s2".data }

def fileC : FileInfo :=
  { fileA with lfn := "g.root".data, pfn := "/a/g.root".data, guid := "g3".data }

/-- A stateless client whose bulk (≥ 2 files) `add_replicas` calls fail while
single-file calls succeed; everything else succeeds. -/
def cDup : Client Unit where
  md5hex := fun _ => "0123456789abcdef0123456789abcdef"
  addDataset := fun s _ _ _ => (.ok, s)
  setMetadata := fun s _ _ _ _ => (.ok, s)
  getMetadata := fun s _ _ => (.found false, s)
  setStatus := fun s _ _ _ => (.ok, s)
  addReplicas := fun s _ fds => (if 2 ≤ fds.length then .err "batch down" else .ok, s)
  addFilesToDataset := fun s _ _ _ _ => (.ok, s)

/-- The initial machine state over the trivial client state. -/
def stU : St Unit := { cstate := () }

/-- Claim C3 counterexample: two input records sharing a logical name yield a
success map with a single entry — not one entry per input record — and the second
record is never individually retried after the failed batch call. -/
theorem claim_C3_cex :
    (register_multiple_files cDup [fileA, fileB] "RSE1".data 100 stU).1 =
      .ok [("f.root".data, true)] ∧
    fileA.lfn = fileB.lfn ∧ fileA ≠ fileB ∧
    (register_multiple_files cDup [fileA, fileB] "RSE1".data 100 stU).2.registered_files =
      ["s1:f.root".data] := by
  exact ⟨by decide, by decide, by decide, by decide⟩

theorem claim_C3_witness :
    (1 : Int) ≤ 100 ∧ ([fileA, fileC].map (·.lfn)).Nodup ∧
    ∃ m st',
      register_multiple_files cDup [fileA, fileC] "RSE1".data 100 stU = (.ok m, st') ∧
      m.map Prod.fst = [fileA, fileC].map (·.lfn) ∧
      ∀ chunk ∈ chunks (100 : Int).toNat [fileA, fileC],
        (cDup.addReplicas () "RSE1".data
            (chunk.map (fun fi => fi.to_rucio_dict "RSE1".data))).1 ≠ ReplResp.ok →
        ∀ fi ∈ chunk, aget? m fi.lfn = some (indivRegOk cDup "RSE1".data fi) :=
  ⟨by decide, by decide,
   claim_C3_register_multiple_files cDup [fileA, fileC] "RSE1".data 100 stU
     (by decide) (by decide)⟩

theorem filter_length_eq : ∀ {fis : List FileInfo} {m : List (Str × Bool)},
    m.map Prod.fst = fis.map (·.lfn) → (fis.map (·.lfn)).Nodup →
    (fis.filter (fun fi => (aget? m fi.lfn).getD false)).length = (m.filter (·.2)).length
  | [], m, hkeys, _ => by
    have : m = [] := by
      cases m with
      | nil => rfl
      | cons p t => simp at hkeys
    subst this
    rfl
  | f :: fis', m, hkeys, hnd => by
    cases m with
    | nil => simp at hkeys
    | cons p m' =>
      obtain ⟨k, v⟩ := p
      simp only [List.map_cons, List.cons.injEq] at hkeys
      obtain ⟨hk, hkeys'⟩ := hkeys
      subst hk
      have hnd' : ¬ f.lfn ∈ fis'.map (·.lfn) ∧ (fis'.map (·.lfn)).Nodup := by
        rw [List.map_cons, List.nodup_cons] at hnd
        exact hnd
      have hhd : aget? ((f.lfn, v) :: m') f.lfn = some v := by
        unfold aget?
        rw [List.find?_cons_of_pos m' (by simp)]
        rfl
      have htl : ∀ g ∈ fis', aget? ((f.lfn, v) :: m') g.lfn = aget? m' g.lfn := by
        intro g hg
        have hne : ¬ f.lfn = g.lfn := by
          intro he
          exact hnd'.1 (he ▸ List.mem_map.mpr ⟨g, hg, rfl⟩)
        unfold aget?
        rw [List.find?_cons_of_neg m' (by simp [hne])]
      have ih : (fis'.filter (fun fi => (aget? m' fi.lfn).getD false)).length =
          (m'.filter (·.2)).length := filter_length_eq hkeys' hnd'.2
      have hfc : fis'.filter (fun fi => (aget? ((f.lfn, v) :: m') fi.lfn).getD false) =
          fis'.filter (fun fi => (aget? m' fi.lfn).getD false) :=
        List.filter_congr (fun g hg => by rw [htl g hg])
      cases v with
      | true =>
        simp only [List.filter_cons, hhd]
        rw [hfc]
        simp [ih]
      | false =>
        simp only [List.filter_cons, hhd]
        rw [hfc]
        simp [ih]

theorem register_multiple_files_keys (c : Client Unit) (files : List FileInfo) (rse : Str)
    (bs : Int) (st : St Unit) (hnd : (files.map (·.lfn)).Nodup) :
    (register_batches c rse (chunks bs.toNat files) [] st).1.map Prod.fst =
      files.map (·.lfn) := by
  have hndflat : (([] : List (Str × Bool)).map Prod.fst ++
      ((chunks bs.toNat files).flatten.map (·.lfn))).Nodup := by
    rw [chunks_flatten]
    simpa using hnd
  rw [register_batches_spec c rse (chunks bs.toNat files) [] st hndflat]
  simp only [List.nil_append, List.map_flatten, List.map_map]
  have h1 : ((chunks bs.toNat files).map (List.map Prod.fst ∘ batchEntries c rse)) =
      (chunks bs.toNat files).map (fun b => b.map (·.lfn)) :=
    List.map_congr_left (fun b _ => batchEntries_keys c rse b)
  rw [h1, ← List.map_flatten, chunks_flatten]

/-- Claim C2 (corrected & amended): in the register step, for every input list that
normalizes to records with pairwise distinct logical names: any fatal failure of the
step is a `FileRegistrationError`; if zero files register successfully the step
fails fatally (recording the "No files were successfully registered" error); if at
least one succeeds, per-file failures are tolerated and exactly the subset whose
logical names registered successfully is passed on, with `files_registered` equal
to the number of successes (which, thanks to distinctness, equals the number of
passed records).  (The original per-record claim for lists with repeated logical
names is refuted by the counterexample.) -/
theorem claim_C2_register_step (c : Client Unit) (items : List FileItem) (rse : Str)
    (res : WorkflowResult) (st : St Unit) :
    (∀ e res' st', prepare_and_register_files c items rse res st = (.error e, res', st') →
       ∃ msg, e = PyExc.fileRegistrationError msg) ∧
    (∀ fis, convertFiles items = .ok fis → (fis.map (·.lfn)).Nodup →
      ∃ m st',
        register_multiple_files c fis rse 100 st = (.ok m, st') ∧
        ((m.filter (·.2)).length = 0 →
           prepare_and_register_files c items rse res st =
             (.error (.fileRegistrationError
                "Failed to register files: No files were successfully registered"),
              WorkflowResult.add_error { res with files_registered := 0 }
                "Failed to register files: No files were successfully registered",
              st')) ∧
        (0 < (m.filter (·.2)).length →
           prepare_and_register_files c items rse res st =
             (.ok (fis.filter (fun fi => (aget? m fi.lfn).getD false)),
              { res with files_registered := (m.filter (·.2)).length }, st') ∧
           (fis.filter (fun fi => (aget? m fi.lfn).getD false)).length =
             (m.filter (·.2)).length)) := by
  constructor
  · intro e res' st' h
    cases hconv : convertFiles items with
    | error e0 =>
      simp only [prepare_and_register_files, hconv] at h
      have he := (Prod.mk.injEq _ _ _ _ |>.mp h).1
      exact ⟨_, ((Except.error.injEq _ _).mp he).symm⟩
    | ok fis =>
      have hreg := register_multiple_files_pos_ok c fis rse 100 (by omega) st
      simp only [prepare_and_register_files, hconv, hreg] at h
      by_cases h0 : ((register_batches c rse (chunks (100 : Int).toNat fis) [] st).1.filter
          (·.2)).length = 0
      · rw [if_pos h0] at h
        have he := (Prod.mk.injEq _ _ _ _ |>.mp h).1
        exact ⟨_, ((Except.error.injEq _ _).mp he).symm⟩
      · rw [if_neg h0] at h
        exact absurd (Prod.mk.injEq _ _ _ _ |>.mp h).1 (by simp)
  · intro fis hconv hnd
    have hreg := register_multiple_files_pos_ok c fis rse 100 (by omega) st
    refine ⟨_, _, hreg, ?_, ?_⟩
    · intro h0
      simp only [prepare_and_register_files, hconv, hreg]
      rw [if_pos h0, h0]
    · intro hpos
      constructor
      · simp only [prepare_and_register_files, hconv, hreg]
        rw [if_neg (by omega)]
      · exact filter_length_eq (register_multiple_files_keys c fis rse 100 st hnd) hnd

/-- Claim C2 counterexample: with two input records sharing a logical name, the
register step passes BOTH records to the attach step although only one was
registered (the tracking set shows a single replica), and `files_registered` is 1 —
the passed list is not the successfully registered subset. -/
theorem claim_C2_cex :
    (prepare_and_register_files cDup [.info fileA, .info fileB] "RSE1".data
        {} stU).1 = .ok [fileA, fileB] ∧
    (prepare_and_register_files cDup [.info fileA, .info fileB] "RSE1".data
        {} stU).2.1.files_registered = 1 ∧
    (prepare_and_register_files cDup [.info fileA, .info fileB] "RSE1".data
        {} stU).2.2.registered_files = ["s1:f.root".data] := by
  exact ⟨by decide, by decide, by decide⟩

theorem claim_C2_witness :
    convertFiles [FileItem.info fileA] = .ok [fileA] ∧
    ([fileA].map (·.lfn)).Nodup ∧
    (∃ m st',
      register_multiple_files cDup [fileA] "RSE1".data 100 stU = (.ok m, st') ∧
      ((m.filter (·.2)).length = 0 →
         prepare_and_register_files cDup [FileItem.info fileA] "RSE1".data {} stU =
           (.error (.fileRegistrationError
              "Failed to register files: No files were successfully registered"),
            WorkflowResult.add_error
              { ({} : WorkflowResult) with files_registered := 0 }
              "Failed to register files: No files were successfully registered",
            st')) ∧
      (0 < (m.filter (·.2)).length →
         prepare_and_register_files cDup [FileItem.info fileA] "RSE1".data {} stU =
           (.ok ([fileA].filter (fun fi => (aget? m fi.lfn).getD false)),
            { ({} : WorkflowResult) with files_registered := (m.filter (·.2)).length }, st') ∧
         ([fileA].filter (fun fi => (aget? m fi.lfn).getD false)).length =
           (m.filter (·.2)).length)) :=
  ⟨by decide, by decide,
   (claim_C2_register_step cDup [FileItem.info fileA] "RSE1".data {} stU).2
     [fileA] (by decide) (by decide)⟩

/-! ## Claim C8: tolerance of the close step -/

/-- Claim C8 (corrected & amended): `close_dataset` treats "not found" and
"unsupported operation" responses as success and returns true; any boolean result
of the close call — true or false — leaves step 4 successful with the dataset
marked closed in the result.  (The original claim's conclusion that closing never
causes the workflow to fail is refuted by the counterexample: an unexpected
exception from the catalog's set-status call is wrapped in a `DatasetError` and
fails the workflow.) -/
theorem claim_C8_close_tolerant :
    (∀ (σ : Type) (c : Client σ) (st : St σ) (sc nm : Str),
       ((c.setStatus st.cstate sc nm false).1 = StatusResp.ok ∨
        (c.setStatus st.cstate sc nm false).1 = StatusResp.unsupported ∨
        (c.setStatus st.cstate sc nm false).1 = StatusResp.notFound) →
       ∃ st', close_dataset c nm (some sc) st = (.ok true, st')) ∧
    (∀ (σ : Type) (c : Client σ) (di : DatasetInfo) (res : WorkflowResult) (st : St σ)
       (b : Bool) (st' : St σ),
       close_dataset c di.name (some di.scope) st = (.ok b, st') →
       workflow_close_dataset c di res st =
         (.ok (), { res with dataset_closed := true }, st')) := by
  constructor
  · intro σ c st sc nm h
    rcases hss : c.setStatus st.cstate sc nm false with ⟨r, s⟩
    rcases h with h | h | h <;>
      rw [hss] at h <;> subst h <;>
        exact ⟨{ st with cstate := s, trace := st.trace ++ [CallEv.setStatus sc nm false] },
               by simp [close_dataset, resolveScopePlain, callSetStatus, hss]⟩
  · intro σ c di res st b st' h
    simp only [workflow_close_dataset, h]

/-- A stateless client whose only failure is a generic exception on the
close-time `set_status(open=false)` call. -/
def cCloseErr : Client Unit :=
  { cDup with
    addReplicas := fun s _ _ => (.ok, s)
    setStatus := fun s _ _ opn => (if opn then .ok else .err "connection lost", s) }

/-- Claim C8 counterexample: a workflow that reaches step 4 with everything
registered and attached still finalizes as failed when the close call raises —
closing DOES cause the workflow to fail. -/
theorem claim_C8_cex :
    (execute_workflow cCloseErr "data.run1".data [.info fileA] "RSE1".data
        none none none 100 stU).1.files_added_to_dataset = 1 ∧
    (execute_workflow cCloseErr "data.run1".data [.info fileA] "RSE1".data
        none none none 100 stU).1.dataset_closed = false ∧
    (execute_workflow cCloseErr "data.run1".data [.info fileA] "RSE1".data
        none none none 100 stU).1.success = false ∧
    "Workflow execution failed: Failed to close dataset: Failed to close dataset run1: connection lost"
      ∈ (execute_workflow cCloseErr "data.run1".data [.info fileA] "RSE1".data
          none none none 100 stU).1.errors := by
  exact ⟨by decide, by decide, by decide, by decide⟩

/-- A stateless client whose close-time `set_status` reports "not found". -/
def cNF : Client Unit :=
  { cDup with setStatus := fun s _ _ _ => (.notFound, s) }

def dsInfo1 : DatasetInfo :=
  { duid := "d", version := 1, vuid := "v", scope := "data".data, name := "run1".data }

theorem claim_C8_witness :
    (∃ st', close_dataset cNF "run1".data (some "data".data) stU = (.ok true, st')) ∧
    workflow_close_dataset cNF dsInfo1 {} stU =
      (.ok (), { ({} : WorkflowResult) with dataset_closed := true },
       (close_dataset cNF dsInfo1.name (some dsInfo1.scope) stU).2) :=
  ⟨claim_C8_close_tolerant.1 Unit cNF stU "data".data "run1".data
     (Or.inr (Or.inr (by decide))),
   claim_C8_close_tolerant.2 Unit cNF dsInfo1 {} stU true
     (close_dataset cNF dsInfo1.name (some dsInfo1.scope) stU).2 rfl⟩

/-! ## Claim C1: failure containment and compensating cleanup -/

theorem execute_workflow_steps_info {σ : Type} (c : Client σ) (dn : Str)
    (files : List FileItem) (rse : Str) (dsc : Option Str) (meta : Option MetaArgs)
    (ldays : Option Int) (bs : Int) (st : St σ) (e : PyExc) (info : Option DatasetInfo)
    (res1 : WorkflowResult) (st1 : St σ)
    (h : execute_workflow_steps c dn files rse dsc meta ldays bs {} st =
      (.error e, info, res1, st1)) :
    res1.dataset_created = true → ∃ di, info = some di := by
  intro hcreated
  unfold execute_workflow_steps at h
  rcases hc : workflow_create_dataset c dn dsc meta ldays {} st with ⟨r1, resA, stA⟩
  rw [hc] at h
  cases r1 with
  | error e1 =>
    simp only [Prod.mk.injEq] at h
    obtain ⟨-, -, hres, -⟩ := h
    unfold workflow_create_dataset at hc
    rcases hcd : create_dataset c dn dsc meta ldays true st with ⟨r0, st0⟩
    rw [hcd] at hc
    cases r0 with
    | ok di0 => simp at hc
    | error e0 =>
      simp only [Prod.mk.injEq] at hc
      obtain ⟨-, hresA, -⟩ := hc
      rw [← hres, ← hresA] at hcreated
      simp [WorkflowResult.add_error] at hcreated
  | ok di =>
    dsimp only at h
    rcases hp : prepare_and_register_files c files rse resA stA with ⟨r2, resB, stB⟩
    rw [hp] at h
    cases r2 with
    | error e2 =>
      simp only [Prod.mk.injEq] at h
      exact ⟨di, h.2.1.symm⟩
    | ok fis =>
      dsimp only at h
      rcases ha : workflow_add_files_to_dataset c fis di rse bs resB stB with ⟨r3, resC, stC⟩
      rw [ha] at h
      cases r3 with
      | error e3 =>
        simp only [Prod.mk.injEq] at h
        exact ⟨di, h.2.1.symm⟩
      | ok u =>
        dsimp only at h
        rcases hcl : workflow_close_dataset c di resC stC with ⟨r4, resD, stD⟩
        rw [hcl] at h
        cases r4 with
        | error e4 =>
          simp only [Prod.mk.injEq] at h
          exact ⟨di, h.2.1.symm⟩
        | ok u2 => simp at h

/-- Claim C1 (confirmed): every fatal exception raised by steps 1–4 of
`execute_workflow` is contained — the workflow function returns a `WorkflowResult`
(by its very type no exception propagates to the caller), the error message is
appended to the result's error list, the result is finalized with
`success = false`, and whenever the dataset had already been created the
compensating cleanup issues the catalog call that sets the dataset's lifetime to
the 1-hour grace window (3600 seconds); the cleanup itself is total, so no
exception escapes from it either. -/
theorem claim_C1_failure_contained {σ : Type} (c : Client σ) (dn : Str)
    (files : List FileItem) (rse : Str) (dsc : Option Str) (meta : Option MetaArgs)
    (ldays : Option Int) (bs : Int) (st : St σ) (e : PyExc) (info : Option DatasetInfo)
    (res1 : WorkflowResult) (st1 : St σ)
    (h : execute_workflow_steps c dn files rse dsc meta ldays bs {} st =
      (.error e, info, res1, st1)) :
    (execute_workflow c dn files rse dsc meta ldays bs st).1.success = false ∧
    (execute_workflow c dn files rse dsc meta ldays bs st).1.end_time = some () ∧
    ("Workflow execution failed: " ++ e.msg) ∈
      (execute_workflow c dn files rse dsc meta ldays bs st).1.errors ∧
    ((execute_workflow c dn files rse dsc meta ldays bs st).1.dataset_created = true →
      ∃ di, info = some di ∧
        CallEv.setMetadata di.scope di.name "lifetime" 3600 ∈
          (execute_workflow c dn files rse dsc meta ldays bs st).2.trace) := by
  have hev : ∀ di : DatasetInfo, ∀ stx : St σ,
      CallEv.setMetadata di.scope di.name "lifetime" 3600 ∈
        (cleanup_on_failure c di stx).trace := by
    intro di stx
    unfold cleanup_on_failure delete_dataset resolveScopePlain
    have hv : (((1 : Int) * 3600 : Int) : ℚ) = (3600 : ℚ) := by norm_num
    rcases hsm : callSetMetadata c stx di.scope di.name "lifetime"
        (((1 : Int) * 3600 : Int) : ℚ) with ⟨r, s2⟩
    have hs2 : s2.trace = stx.trace ++ [CallEv.setMetadata di.scope di.name "lifetime" 3600] := by
      unfold callSetMetadata at hsm
      have := congrArg Prod.snd hsm
      simp only at this
      rw [← this, hv]
    simp only [hsm]
    cases r <;>
      simp [hs2, List.mem_append]
  simp only [execute_workflow]
  rw [h]
  simp only [WorkflowResult.add_error, WorkflowResult.mark_complete]
  cases hdc : res1.dataset_created with
  | false =>
    rw [if_neg (by simp [hdc])]
    refine ⟨rfl, rfl, ?_, ?_⟩
    · simp
    · intro hcr
      simp at hcr
  | true =>
    obtain ⟨di, hdi⟩ := execute_workflow_steps_info c dn files rse dsc meta ldays bs st
      e info res1 st1 h hdc
    subst hdi
    rw [if_pos (by simp [hdc])]
    refine ⟨rfl, rfl, by simp, ?_⟩
    intro _
    exact ⟨di, rfl, hev di st1⟩

/-- A stateless client whose dataset creation raises a generic exception. -/
def cErr : Client Unit :=
  { cDup with addDataset := fun s _ _ _ => (.err "boom", s) }

theorem claim_C1_witness :
    (execute_workflow cErr "data.run1".data [] "RSE1".data none none none 100 stU).1.success
        = false ∧
    (execute_workflow cErr "data.run1".data [] "RSE1".data none none none 100 stU).1.end_time
        = some () := by
  have h := claim_C1_failure_contained cErr "data.run1".data [] "RSE1".data
    none none none 100 stU _ _ _ _ rfl
  exact ⟨h.1, h.2.1⟩

/-! ## Claim C10: empty file list -/

/-- Claim C10 (corrected & amended): for every call of `execute_workflow` with an
empty files list in which step 1 (dataset creation) itself succeeds, the run
finalizes as failed with the `FileRegistrationError` message
`"Failed to register files: No files were successfully registered"` recorded in
the result, even though no individual file registration was attempted, because
`register_multiple_files` returns an empty success map and zero successes is
fatal.  (The original claim, asserting this for EVERY empty-list call, is refuted
by the counterexample in which dataset creation fails first.) -/
theorem claim_C10_empty_files {σ : Type} (c : Client σ) (dn : Str) (rse : Str)
    (dsc : Option Str) (meta : Option MetaArgs) (ldays : Option Int) (bs : Int)
    (st : St σ) (di : DatasetInfo) (resA : WorkflowResult) (stA : St σ)
    (h : workflow_create_dataset c dn dsc meta ldays {} st = (.ok di, resA, stA)) :
    (execute_workflow c dn [] rse dsc meta ldays bs st).1.success = false ∧
    "Failed to register files: No files were successfully registered" ∈
      (execute_workflow c dn [] rse dsc meta ldays bs st).1.errors := by
  have hresA : resA = { ({} : WorkflowResult) with
      dataset_created := true, dataset_info := some di } := by
    unfold workflow_create_dataset at h
    rcases hcd : create_dataset c dn dsc meta ldays true st with ⟨r0, st0⟩
    rw [hcd] at h
    cases r0 with
    | error e0 => simp at h
    | ok di0 =>
      simp only [Prod.mk.injEq, Except.ok.injEq] at h
      obtain ⟨he, hra, -⟩ := h
      cases he
      rw [← hra]
  have hprep : prepare_and_register_files c ([] : List FileItem) rse resA stA =
      (.error (.fileRegistrationError
         "Failed to register files: No files were successfully registered"),
       WorkflowResult.add_error { resA with files_registered := 0 }
         "Failed to register files: No files were successfully registered",
       stA) := by
    simp only [prepare_and_register_files, convertFiles,
      register_multiple_files_pos_ok c [] rse 100 (by omega) stA]
    rfl
  have hsteps : execute_workflow_steps c dn [] rse dsc meta ldays bs {} st =
      (.error (.fileRegistrationError
         "Failed to register files: No files were successfully registered"),
       some di,
       WorkflowResult.add_error { resA with files_registered := 0 }
         "Failed to register files: No files were successfully registered",
       stA) := by
    simp only [execute_workflow_steps, h]
    rw [hprep]
  simp only [execute_workflow]
  rw [hsteps]
  dsimp only
  subst hresA
  simp [WorkflowResult.add_error, WorkflowResult.mark_complete]

theorem claim_C10_witness :
    (execute_workflow cDup "data.run1".data [] "RSE1".data none none none 100 stU).1.success
        = false ∧
    "Failed to register files: No files were successfully registered" ∈
      (execute_workflow cDup "data.run1".data [] "RSE1".data
          none none none 100 stU).1.errors := by
  exact claim_C10_empty_files cDup "data.run1".data "RSE1".data none none none 100 stU
    _ _ _ rfl

/-- Claim C10 counterexample: with an empty files list but a dataset name failing
validation, the run still finalizes as failed — yet the registration message is
NOT recorded (the recorded errors are creation errors), refuting the "always"
in the original claim. -/
theorem claim_C10_cex :
    (execute_workflow cDup "".data [] "RSE1".data none none none 100 stU).1.success = false ∧
    ¬ "Failed to register files: No files were successfully registered" ∈
      (execute_workflow cDup "".data [] "RSE1".data none none none 100 stU).1.errors := by
  exact ⟨by decide, by decide⟩
